import Mathlib

set_option autoImplicit false

/-!
Verification development for the cruise container manager daemon.

The development shallowly embeds the container lifecycle orchestrator:
the container record and its status enum, the JSON (de)serialization of
records, the in-memory container map, the on-disk container store, the
runtime adapter, and the container manager operations (create, start,
stop, delete, get, list, reload).  External effects (subprocess spawns,
filesystem I/O) are captured by explicit oracle structures so that every
operation is a pure, executable function of the oracle and the state.
-/

namespace Cruise

/-- Wall-clock instant in the shape serde uses for std::time::SystemTime:
seconds and nanoseconds since the Unix epoch. -/
structure SysTime where
  secs : Nat
  nanos : Nat
deriving DecidableEq, Repr

/-- Status enum from src/src/container/mod.rs. -/
inductive Status where
  | Initialized
  | Created
  | Running
  | Paused
  | Stopped
  | Unknown
deriving DecidableEq, Repr

/-- RuncStatus from src/src/container/mod.rs: the JSON object emitted by
the runtime state command, restricted to its status field. -/
structure RuncStatus where
  status : String
deriving DecidableEq, Repr

/-- Status.from_runc_status from src/src/container/mod.rs (lines 49-60):
translation from the runtime status string to the internal enum.  The
Rust match on a string slice is the successive equality test below. -/
def Status.from_runc_status (runc_status : RuncStatus) : Status :=
  if runc_status.status = "created" then .Created
  else if runc_status.status = "running" then .Running
  else if runc_status.status = "pausing" then .Running
  else if runc_status.status = "paused" then .Paused
  else if runc_status.status = "stopped" then .Stopped
  else .Unknown

/-- Modelled from the spec: the Container record (spec section 3).  The
copy of src/src/container/mod.rs in this snapshot is a stale revision:
its constructor takes only an id and a name, and it lacks the started_at,
command and args fields that container_manager/mod.rs and
container_manager/container_map/mod.rs read and write.  The record is
therefore reconstructed from the spec and from the fields its callers
access: id, name, status, exit_code, created_at, started_at, command,
args.  finished_at is reserved for a future shim and is not a field of
this core (the RPC layer renders it as a constant). -/
structure Container where
  id : String
  name : String
  status : Status
  exit_code : Int
  created_at : Option SysTime
  started_at : Option SysTime
  command : String
  args : List String
deriving DecidableEq, Repr

/-- Modelled from the spec: the container constructor (new in
src/src/container/mod.rs, stale in this snapshot; called as
new_container(id, name, command, args) by the manager).  It sets status
Initialized, the -1 exit-code sentinel, and absent timestamps. -/
def new_container (cid name command : String) (args : List String) : Container :=
  { id := cid
    name := name
    status := Status.Initialized
    exit_code := -1
    created_at := none
    started_at := none
    command := command
    args := args }

/-- JSON values, the data model serde_json (de)serializes through. -/
inductive Json where
  | null
  | str (s : String)
  | int (n : Int)
  | arr (elems : List Json)
  | obj (fields : List (String × Json))

/-- Lookup of a field in a serialized JSON object. -/
def jlookup : List (String × Json) → String → Option Json
  | [], _ => none
  | (k, v) :: t, k' => if k = k' then some v else jlookup t k'

/-- Decoding a JSON value as a string. -/
def decodeStr : Json → Option String
  | .str s => some s
  | _ => none

/-- Decoding a JSON value as a signed integer. -/
def decodeInt : Json → Option Int
  | .int n => some n
  | _ => none

/-- Decoding a JSON value as an unsigned integer; negative numbers are
rejected as serde rejects them for unsigned fields. -/
def decodeNat : Json → Option Nat
  | .int (.ofNat n) => some n
  | _ => none

/-- Serialization of a SysTime, following the serde shape of
std::time::SystemTime. -/
def encodeTime (t : SysTime) : Json :=
  .obj [("secs_since_epoch", .int t.secs), ("nanos_since_epoch", .int t.nanos)]

/-- Deserialization of a SysTime. -/
def decodeTime (j : Json) : Option SysTime :=
  match j with
  | .obj fs =>
    match jlookup fs "secs_since_epoch", jlookup fs "nanos_since_epoch" with
    | some js, some jn =>
      match decodeNat js, decodeNat jn with
      | some s, some n => some ⟨s, n⟩
      | _, _ => none
    | _, _ => none
  | _ => none

/-- Serialization of an optional timestamp: derived serde emits null for
None and the value for Some. -/
def encodeOptTime : Option SysTime → Json
  | none => .null
  | some t => encodeTime t

/-- Deserialization of an optional timestamp. -/
def decodeOptTime (j : Json) : Option (Option SysTime) :=
  match j with
  | .null => some none
  | j => (decodeTime j).map some

/-- Serialization of the Status enum: derived serde renders a unit
variant as its name. -/
def encodeStatus : Status → Json
  | .Initialized => .str "Initialized"
  | .Created => .str "Created"
  | .Running => .str "Running"
  | .Paused => .str "Paused"
  | .Stopped => .str "Stopped"
  | .Unknown => .str "Unknown"

/-- Deserialization of the Status enum; unrecognized variant names are a
parse error. -/
def decodeStatus (j : Json) : Option Status :=
  match j with
  | .str s =>
    if s = "Initialized" then some .Initialized
    else if s = "Created" then some .Created
    else if s = "Running" then some .Running
    else if s = "Paused" then some .Paused
    else if s = "Stopped" then some .Stopped
    else if s = "Unknown" then some .Unknown
    else none
  | _ => none

/-- Deserialization of a list of strings. -/
def decodeStrList : List Json → Option (List String)
  | [] => some []
  | j :: t =>
    match decodeStr j, decodeStrList t with
    | some s, some rest => some (s :: rest)
    | _, _ => none

/-- Serialization of a Container record to its JSON object, field names
matching the record attribute names (spec section 6). -/
def encodeContainer (c : Container) : Json :=
  .obj
    [ ("id", .str c.id)
    , ("name", .str c.name)
    , ("status", encodeStatus c.status)
    , ("exit_code", .int c.exit_code)
    , ("created_at", encodeOptTime c.created_at)
    , ("started_at", encodeOptTime c.started_at)
    , ("command", .str c.command)
    , ("args", .arr (c.args.map .str)) ]

/-- Deserialization of a Container record from a JSON value. -/
def decodeContainer (j : Json) : Option Container :=
  match j with
  | .obj fs =>
    match jlookup fs "id" with
    | none => none
    | some jid =>
    match decodeStr jid with
    | none => none
    | some cid =>
    match jlookup fs "name" with
    | none => none
    | some jname =>
    match decodeStr jname with
    | none => none
    | some name =>
    match jlookup fs "status" with
    | none => none
    | some jst =>
    match decodeStatus jst with
    | none => none
    | some st =>
    match jlookup fs "exit_code" with
    | none => none
    | some jec =>
    match decodeInt jec with
    | none => none
    | some ec =>
    match jlookup fs "created_at" with
    | none => none
    | some jca =>
    match decodeOptTime jca with
    | none => none
    | some ca =>
    match jlookup fs "started_at" with
    | none => none
    | some jsa =>
    match decodeOptTime jsa with
    | none => none
    | some sa =>
    match jlookup fs "command" with
    | none => none
    | some jcmd =>
    match decodeStr jcmd with
    | none => none
    | some cmd =>
    match jlookup fs "args" with
    | none => none
    | some jargs =>
    match jargs with
    | .arr l =>
      match decodeStrList l with
      | none => none
      | some args => some ⟨cid, name, st, ec, ca, sa, cmd, args⟩
    | _ => none
  | _ => none

/-! Error taxonomy, mirroring the Rust error enums. I/O error sources
are abstracted as numeric tags supplied by the oracles. -/

/-- Opaque stand-in for std::io::Error values. -/
abbrev IoError := Nat

/-- RuncMethod from src/src/container_manager/container_runtime/mod.rs. -/
inductive RuncMethod where
  | Spec
  | Create
  | Start
  | Kill
  | Delete
  | State
deriving DecidableEq, Repr

/-- ContainerRuntimeError from
src/src/container_manager/container_runtime/mod.rs. -/
inductive ContainerRuntimeError where
  | RuncError (method : RuncMethod) (container_id : String) (source : IoError)
  | SedError (updating : String) (source : IoError)
  | ConvertContainerStatusError (source : Nat)
  | ParseContainerStatusError (source : Nat)
  | ContainerNotFoundError (container_id : String)
deriving DecidableEq, Repr

/-- ContainerMapError from
src/src/container_manager/container_map/mod.rs. -/
inductive ContainerMapError where
  | ContainerAlreadyExistsError (container_id : String)
  | ContainerNotFoundError (container_id : String)
deriving DecidableEq, Repr

/-- ContainerStoreError from
src/src/container_manager/container_store/mod.rs. -/
inductive ContainerStoreError where
  | CreateContainersDirError (source : IoError)
  | ReadContainersDirError (source : IoError)
  | CreateSpecificContainerDirError (container_id : String) (source : IoError)
  | CreateRootfsDirError (container_id : String) (source : IoError)
  | CopyRootfsDirError (container_id : String) (source : IoError)
  | ContainerDirAlreadyExistsError (container_id : String)
  | SerializeContainerStateError (container_id : String) (source : Nat)
  | PersistContainerStateError (container_id : String) (source : IoError)
  | RenameContainerStateFileError (container_id : String) (source : IoError)
  | ReadContainerStateFileError (container_id : String) (source : IoError)
  | ParseContainerStateError (container_id : String) (source : Nat)
  | ContainerIDNotInPathError (container_dir : String)
  | IOError (source : IoError)
deriving DecidableEq, Repr

/-- ContainerManagerError from src/src/container_manager/mod.rs. -/
inductive ContainerManagerError where
  | CreateContainerStoreError (source : ContainerStoreError)
  | ReloadError (source : ContainerStoreError)
  | ContainerStoreError (source : ContainerStoreError)
  | ContainerNotFoundError (container_id : String)
  | ContainerMapError (source : ContainerMapError)
  | ContainerRuntimeError (source : ContainerRuntimeError)
  | StartContainerNotInCreatedStateError (container_id : String)
  | StopContainerNotInRunningStateError (container_id : String)
  | DeleteContainerNotInDeleteableStateError (container_id : String)
deriving DecidableEq, Repr

/-- From impl of ContainerMapError for ContainerManagerError
(src/src/container_manager/mod.rs lines 104-113). -/
def fromMapError : ContainerMapError → ContainerManagerError
  | .ContainerNotFoundError cid => .ContainerNotFoundError cid
  | e => .ContainerMapError e

/-- From impl of ContainerRuntimeError for ContainerManagerError
(src/src/container_manager/mod.rs lines 115-124). -/
def fromRuntimeError : ContainerRuntimeError → ContainerManagerError
  | .ContainerNotFoundError cid => .ContainerNotFoundError cid
  | e => .ContainerRuntimeError e

/-- From impl of ContainerStoreError for ContainerManagerError
(src/src/container_manager/mod.rs lines 126-132). -/
def fromStoreError (e : ContainerStoreError) : ContainerManagerError :=
  .ContainerStoreError e

/-! Association-list primitives standing for the HashMap-backed registry
and for the containers directory on disk.  Only lookup-compatible
behavior matters, so insertion is consing and removal filters the key. -/

section AList

variable {α : Type}

/-- Lookup of a key. -/
def lk : List (String × α) → String → Option α
  | [], _ => none
  | (k, v) :: t, k' => if k = k' then some v else lk t k'

/-- Key-membership test, as HashMap contains_key. -/
def containsKey (l : List (String × α)) (k : String) : Bool :=
  (lk l k).isSome

/-- Removal of a key, as HashMap remove. -/
def rmKey : List (String × α) → String → List (String × α)
  | [], _ => []
  | (k, v) :: t, k' => if k = k' then rmKey t k' else (k, v) :: rmKey t k'

/-- In-place update of the value at a key, as a mutation through
HashMap get_mut. -/
def updKey (l : List (String × α)) (k : String) (f : α → α) : List (String × α) :=
  l.map (fun p => if p.1 = k then (p.1, f p.2) else p)

end AList

/-! Container registry: the operations of
src/src/container_manager/container_map/mod.rs over the association
list.  The mutex is irrelevant in this sequential embedding. -/

abbrev Registry := List (String × Container)

/-- ContainerMap::add: insert, failing when the id is present. -/
def mapAdd (reg : Registry) (c : Container) :
    Except ContainerMapError (String × Registry) :=
  if containsKey reg c.id then
    .error (.ContainerAlreadyExistsError c.id)
  else
    .ok (c.id, (c.id, c) :: reg)

/-- ContainerMap::get: clone of the record, failing when absent. -/
def mapGet (reg : Registry) (cid : String) : Except ContainerMapError Container :=
  match lk reg cid with
  | none => .error (.ContainerNotFoundError cid)
  | some c => .ok c

/-- ContainerMap::list: clones of all records. -/
def mapList (reg : Registry) : List Container :=
  reg.map (·.2)

/-- ContainerMap::remove: idempotent delete. -/
def mapRemove (reg : Registry) (cid : String) : Registry :=
  rmKey reg cid

/-- ContainerMap::update_status: mutate the status field, failing when
the id is absent. -/
def mapUpdateStatus (reg : Registry) (cid : String) (st : Status) :
    Except ContainerMapError Registry :=
  if containsKey reg cid then
    .ok (updKey reg cid (fun c => { c with status := st }))
  else
    .error (.ContainerNotFoundError cid)

/-- ContainerMap::update_creation_time. -/
def mapUpdateCreationTime (reg : Registry) (cid : String) (t : SysTime) :
    Except ContainerMapError Registry :=
  if containsKey reg cid then
    .ok (updKey reg cid (fun c => { c with created_at := some t }))
  else
    .error (.ContainerNotFoundError cid)

/-- ContainerMap::update_start_time. -/
def mapUpdateStartTime (reg : Registry) (cid : String) (t : SysTime) :
    Except ContainerMapError Registry :=
  if containsKey reg cid then
    .ok (updKey reg cid (fun c => { c with started_at := some t }))
  else
    .error (.ContainerNotFoundError cid)

/-! Container store: the on-disk containers directory, from
src/src/container_manager/container_store/mod.rs.  A container directory
is a CDir; file contents are either a whole serialized JSON value or
unparseable bytes.  I/O failures of the underlying syscalls are decided
by a StoreEnv oracle. -/

/-- Contents of a state file: a whole serialized JSON value, or bytes
that do not parse (corruption, or the prefix left by an interrupted
write). -/
inductive FData where
  | ok (j : Json)
  | bad

/-- One container directory under containers/: the container.state file,
the container.state.temp scratch file, and the bundle subtree. -/
structure CDir where
  state : Option FData
  temp : Option FData
  bundle : Bool

/-- Freshly created container directory. -/
def emptyCDir : CDir := ⟨none, none, false⟩

/-- On-disk containers/ directory: directory basename to contents. -/
abbrev Disk := List (String × CDir)

/-- Oracle deciding the success of the store's fallible filesystem
syscalls, per container id. -/
structure StoreEnv where
  listOk : Bool
  createDirOk : String → Bool
  rootfsDirOk : String → Bool
  copyOk : String → Bool
  writeOk : String → Bool
  renameOk : String → Bool
  readOk : String → Bool

/-- ContainerStore::create_container_directory (create_container in the
snapshot's store file): fail when the directory exists, then mkdir. -/
def create_container_directory (S : StoreEnv) (disk : Disk) (cid : String) :
    Except ContainerStoreError Disk :=
  if containsKey disk cid then
    .error (.ContainerDirAlreadyExistsError cid)
  else if S.createDirOk cid then
    .ok ((cid, emptyCDir) :: disk)
  else
    .error (.CreateSpecificContainerDirError cid 0)

/-- ContainerStore::remove_container_directory (remove_container in the
snapshot's store file): best-effort recursive removal, never errors. -/
def remove_container_directory (disk : Disk) (cid : String) : Disk :=
  rmKey disk cid

/-- ContainerStore::create_container_bundle: create_dir_all of the
bundle rootfs directory, then the recursive rootfs copy.  The directory
creation happens before the copy, so a copy failure leaves the bundle
directory behind; the bundle path returned by the Rust function is not
consumed by the model. -/
def create_container_bundle (S : StoreEnv) (disk : Disk) (cid : String) :
    Except ContainerStoreError Unit × Disk :=
  if S.rootfsDirOk cid then
    let disk1 :=
      if containsKey disk cid then
        updKey disk cid (fun d => { d with bundle := true })
      else
        (cid, { emptyCDir with bundle := true }) :: disk
    if S.copyOk cid then
      (.ok (), disk1)
    else
      (.error (.CopyRootfsDirError cid 0), disk1)
  else
    (.error (.CreateRootfsDirError cid 0), disk)

/-- ContainerStore::atomic_persist_container_state (lines 289-317):
serialize the record, write the bytes to container.state.temp, rename
the temp file onto container.state.  Serialization of this record type
cannot fail; a failed write leaves unparseable bytes in the temp file; a
failed rename leaves the state file untouched. -/
def store_atomic_persist (S : StoreEnv) (disk : Disk) (c : Container) :
    Except ContainerStoreError Unit × Disk :=
  let j := encodeContainer c
  match lk disk c.id with
  | none => (.error (.PersistContainerStateError c.id 0), disk)
  | some _ =>
    if S.writeOk c.id then
      if S.renameOk c.id then
        (.ok (), updKey disk c.id (fun d => { d with state := some (.ok j), temp := none }))
      else
        (.error (.RenameContainerStateFileError c.id 0),
          updKey disk c.id (fun d => { d with temp := some (.ok j) }))
    else
      (.error (.PersistContainerStateError c.id 0),
        updKey disk c.id (fun d => { d with temp := some .bad }))

/-- ContainerStore::read_container_state (lines 319-336): read the state
file, then deserialize, with distinct error kinds for unreadable and
unparseable. -/
def store_read_container_state (S : StoreEnv) (disk : Disk) (cid : String) :
    Except ContainerStoreError Container :=
  match lk disk cid with
  | none => .error (.ReadContainerStateFileError cid 0)
  | some d =>
    if S.readOk cid then
      match d.state with
      | none => .error (.ReadContainerStateFileError cid 0)
      | some .bad => .error (.ParseContainerStateError cid 0)
      | some (.ok j) =>
        match decodeContainer j with
        | none => .error (.ParseContainerStateError cid 0)
        | some c => .ok c
    else
      .error (.ReadContainerStateFileError cid 0)

/-- ContainerStore::list_container_ids (lines 338-352): the directory
basenames under containers/. -/
def store_list_container_ids (S : StoreEnv) (disk : Disk) :
    Except ContainerStoreError (List String) :=
  if S.listOk then .ok (disk.map (·.1)) else .error (.ReadContainersDirError 0)

/-! Runtime adapter, from
src/src/container_manager/container_runtime/mod.rs.  Each operation
spawns a child process; the oracle decides the outcome of each spawn.
Command::output() and Command::spawn() return an error only when the
child cannot be spawned or its outcome collected; a child that runs and
exits non-zero is an Ok outcome whose status the code never inspects,
which the model makes explicit by carrying the ignored exit code. -/

/-- Outcome of the runtime state invocation, as far as the adapter code
discriminates it: spawn failure, non-UTF-8 output, empty output, output
that fails to parse as status JSON, or a parsed status string. -/
inductive StateCall where
  | spawnErr (source : IoError)
  | utf8Err (tag : Nat)
  | emptyOutput
  | parseErr (tag : Nat)
  | parsed (status : String)

/-- Oracle deciding the outcome of each child-process invocation. -/
structure RuntimeEnv where
  specSpawn : Except IoError Int
  sedArgsSpawn : Except IoError Int
  sedTermSpawn : Except IoError Int
  createSpawn : Except IoError Unit
  startSpawn : String → Except IoError Unit
  killSpawn : String → Except IoError Int
  deleteSpawn : String → Except IoError Int
  stateCall : String → StateCall

/-- ContainerRuntime::new_runtime_spec (lines 142-187): runc spec, then
two sed rewrites.  Each step fails only when its spawn fails; the exit
codes of the children are never checked. -/
def new_runtime_spec (R : RuntimeEnv) : Except ContainerRuntimeError Unit :=
  match R.specSpawn with
  | .error source => .error (.RuncError .Spec "" source)
  | .ok _exit =>
    match R.sedArgsSpawn with
    | .error source => .error (.SedError "args" source)
    | .ok _ =>
      match R.sedTermSpawn with
      | .error source => .error (.SedError "terminal settings" source)
      | .ok _ => .ok ()

/-- ContainerRuntime::create_container: asynchronous spawn of runc
create; only a spawn failure is an error. -/
def runtime_create_container (R : RuntimeEnv) : Except ContainerRuntimeError Unit :=
  match R.createSpawn with
  | .error source => .error (.RuncError .Create "" source)
  | .ok _ => .ok ()

/-- ContainerRuntime::start_container: asynchronous spawn of runc
start. -/
def runtime_start_container (R : RuntimeEnv) (cid : String) :
    Except ContainerRuntimeError Unit :=
  match R.startSpawn cid with
  | .error source => .error (.RuncError .Start cid source)
  | .ok _ => .ok ()

/-- ContainerRuntime::kill_container: runc kill with signal 9, waited
on; the collected exit status is not checked. -/
def runtime_kill_container (R : RuntimeEnv) (cid : String) :
    Except ContainerRuntimeError Unit :=
  match R.killSpawn cid with
  | .error source => .error (.RuncError .Kill cid source)
  | .ok _exit => .ok ()

/-- ContainerRuntime::delete_container: runc delete, waited on; the
collected exit status is not checked. -/
def runtime_delete_container (R : RuntimeEnv) (cid : String) :
    Except ContainerRuntimeError Unit :=
  match R.deleteSpawn cid with
  | .error source => .error (.RuncError .Delete cid source)
  | .ok _exit => .ok ()

/-- ContainerRuntime::get_container_status (lines 270-299): runc state,
UTF-8 decode of stdout, empty output surfaced as not-found, JSON parse,
then the status-string translation. -/
def get_container_status (R : RuntimeEnv) (cid : String) :
    Except ContainerRuntimeError Status :=
  match R.stateCall cid with
  | .spawnErr source => .error (.RuncError .State cid source)
  | .utf8Err tag => .error (.ConvertContainerStatusError tag)
  | .emptyOutput => .error (.ContainerNotFoundError cid)
  | .parseErr tag => .error (.ParseContainerStatusError tag)
  | .parsed s => .ok (Status.from_runc_status ⟨s⟩)

/-! Container manager, from src/src/container_manager/mod.rs.  The
manager state is the registry plus the on-disk containers directory;
every operation returns its result together with the post-state. -/

/-- Manager-owned mutable state: in-memory registry and disk. -/
structure MState where
  reg : Registry
  disk : Disk

/-- ContainerOptions from src/src/container_manager/mod.rs. -/
structure ContainerOptions where
  name : String
  command : String
  args : List String
  rootfs_path : String

/-- InternalCreateContainerError from src/src/container_manager/mod.rs:
the failure source together with the id to roll back. -/
structure InternalCreateContainerError where
  container_id : String
  source : ContainerManagerError

/-- ContainerManager::update_container_status (in-memory only). -/
def update_container_statusM (s : MState) (cid : String) (st : Status) :
    Except ContainerManagerError MState :=
  match mapUpdateStatus s.reg cid st with
  | .error e => .error (fromMapError e)
  | .ok reg1 => .ok { s with reg := reg1 }

/-- ContainerManager::update_container_created_at (in-memory only). -/
def update_container_created_atM (s : MState) (cid : String) (t : SysTime) :
    Except ContainerManagerError MState :=
  match mapUpdateCreationTime s.reg cid t with
  | .error e => .error (fromMapError e)
  | .ok reg1 => .ok { s with reg := reg1 }

/-- ContainerManager::update_container_started_at (in-memory only). -/
def update_container_started_atM (s : MState) (cid : String) (t : SysTime) :
    Except ContainerManagerError MState :=
  match mapUpdateStartTime s.reg cid t with
  | .error e => .error (fromMapError e)
  | .ok reg1 => .ok { s with reg := reg1 }

/-- ContainerManager::atomic_persist_container_state (lines 463-475):
fetch the record from the registry (a map failure is wrapped as
ContainerMapError without the not-found translation), then persist it
through the store. -/
def atomic_persist_container_stateM (S : StoreEnv) (s : MState) (cid : String) :
    Except ContainerManagerError Unit × MState :=
  match mapGet s.reg cid with
  | .error e => (.error (.ContainerMapError e), s)
  | .ok c =>
    match store_atomic_persist S s.disk c with
    | (.error e, disk1) => (.error (fromStoreError e), { s with disk := disk1 })
    | (.ok _, disk1) => (.ok (), { s with disk := disk1 })

/-- ContainerManager::sync_container_status_with_runtime (lines
417-428): runtime status, in-memory update, persist. -/
def sync_container_status_with_runtime (R : RuntimeEnv) (S : StoreEnv)
    (s : MState) (cid : String) : Except ContainerManagerError Unit × MState :=
  match get_container_status R cid with
  | .error e => (.error (fromRuntimeError e), s)
  | .ok st =>
    match update_container_statusM s cid st with
    | .error e => (.error e, s)
    | .ok s1 => atomic_persist_container_stateM S s1 cid

/-- ContainerManager::rollback_container_create (lines 206-210):
registry remove then directory remove, both best-effort. -/
def rollback_container_create (cid : String) (s : MState) : MState :=
  { reg := mapRemove s.reg cid, disk := remove_container_directory s.disk cid }

/-- ContainerManager::create_container_helper (lines 236-305): generate
the record, insert it, create the directory, create the bundle, generate
the runtime spec, spawn runtime create, set created_at, set status
Created, persist.  The generated id and the clock reading are inputs. -/
def create_container_helper (R : RuntimeEnv) (S : StoreEnv)
    (opts : ContainerOptions) (gen_id : String) (now : SysTime) (s : MState) :
    Except InternalCreateContainerError String × MState :=
  let container := new_container gen_id opts.name opts.command opts.args
  match mapAdd s.reg container with
  | .error e => (.error ⟨gen_id, fromMapError e⟩, s)
  | .ok (cid, reg1) =>
    let s1 : MState := { s with reg := reg1 }
    match create_container_directory S s1.disk cid with
    | .error e => (.error ⟨cid, fromStoreError e⟩, s1)
    | .ok disk1 =>
      let s2 : MState := { s1 with disk := disk1 }
      match create_container_bundle S s2.disk cid with
      | (.error e, disk2) => (.error ⟨cid, fromStoreError e⟩, { s2 with disk := disk2 })
      | (.ok _, disk2) =>
        let s3 : MState := { s2 with disk := disk2 }
        match new_runtime_spec R with
        | .error e => (.error ⟨cid, fromRuntimeError e⟩, s3)
        | .ok _ =>
          match runtime_create_container R with
          | .error e => (.error ⟨cid, fromRuntimeError e⟩, s3)
          | .ok _ =>
            match update_container_created_atM s3 cid now with
            | .error e => (.error ⟨cid, e⟩, s3)
            | .ok s4 =>
              match update_container_statusM s4 cid .Created with
              | .error e => (.error ⟨cid, e⟩, s4)
              | .ok s5 =>
                match atomic_persist_container_stateM S s5 cid with
                | (.error e, s6) => (.error ⟨cid, e⟩, s6)
                | (.ok _, s6) => (.ok cid, s6)

/-- ContainerManager::create_container (lines 216-225): run the helper;
on failure, best-effort rollback and return the original source error. -/
def create_container (R : RuntimeEnv) (S : StoreEnv)
    (opts : ContainerOptions) (gen_id : String) (now : SysTime) (s : MState) :
    Except ContainerManagerError String × MState :=
  match create_container_helper R S opts gen_id now s with
  | (.ok cid, s') => (.ok cid, s')
  | (.error e, s') => (.error e.source, rollback_container_create e.container_id s')

/-- ContainerManager::start_container (lines 311-335): require status
Created, runtime start, set started_at, set status Running, persist. -/
def start_container (R : RuntimeEnv) (S : StoreEnv)
    (s : MState) (cid : String) (now : SysTime) :
    Except ContainerManagerError Unit × MState :=
  match mapGet s.reg cid with
  | .error e => (.error (fromMapError e), s)
  | .ok c =>
    if c.status ≠ Status.Created then
      (.error (.StartContainerNotInCreatedStateError cid), s)
    else
      match runtime_start_container R cid with
      | .error e => (.error (fromRuntimeError e), s)
      | .ok _ =>
        match update_container_started_atM s cid now with
        | .error e => (.error e, s)
        | .ok s1 =>
          match update_container_statusM s1 cid .Running with
          | .error e => (.error e, s1)
          | .ok s2 => atomic_persist_container_stateM S s2 cid

/-- ContainerManager::stop_container (lines 341-358): require status
Running, runtime kill with SIGKILL, set status Stopped, persist. -/
def stop_container (R : RuntimeEnv) (S : StoreEnv) (s : MState) (cid : String) :
    Except ContainerManagerError Unit × MState :=
  match mapGet s.reg cid with
  | .error e => (.error (fromMapError e), s)
  | .ok c =>
    if c.status ≠ Status.Running then
      (.error (.StopContainerNotInRunningStateError cid), s)
    else
      match runtime_kill_container R cid with
      | .error e => (.error (fromRuntimeError e), s)
      | .ok _ =>
        match update_container_statusM s cid .Stopped with
        | .error e => (.error e, s)
        | .ok s1 => atomic_persist_container_stateM S s1 cid

/-- ContainerManager::delete_container (lines 364-385): require status
Stopped or Created, runtime delete (an error here propagates through the
question-mark operator), then remove from registry and disk. -/
def delete_container (R : RuntimeEnv) (s : MState) (cid : String) :
    Except ContainerManagerError Unit × MState :=
  match mapGet s.reg cid with
  | .error e => (.error (fromMapError e), s)
  | .ok c =>
    if c.status ≠ Status.Stopped ∧ c.status ≠ Status.Created then
      (.error (.DeleteContainerNotInDeleteableStateError cid), s)
    else
      match runtime_delete_container R cid with
      | .error e => (.error (fromRuntimeError e), s)
      | .ok _ =>
        (.ok (), { reg := mapRemove s.reg cid,
                   disk := remove_container_directory s.disk cid })

/-- ContainerManager::get_container (lines 391-399): sync with the
runtime, then return the registry clone. -/
def get_container (R : RuntimeEnv) (S : StoreEnv) (s : MState) (cid : String) :
    Except ContainerManagerError Container × MState :=
  match sync_container_status_with_runtime R S s cid with
  | (.error e, s1) => (.error e, s1)
  | (.ok _, s1) =>
    match mapGet s1.reg cid with
    | .error e => (.error (fromMapError e), s1)
    | .ok c => (.ok c, s1)

/-- Sequential sync of a snapshot of containers, failing fast, as the
loop of ContainerManager::list_containers. -/
def syncAll (R : RuntimeEnv) (S : StoreEnv) :
    List Container → MState → Except ContainerManagerError Unit × MState
  | [], s => (.ok (), s)
  | c :: rest, s =>
    match sync_container_status_with_runtime R S s c.id with
    | (.error e, s1) => (.error e, s1)
    | (.ok _, s1) => syncAll R S rest s1

/-- ContainerManager::list_containers (lines 405-415): sync every known
container, then return the clones. -/
def list_containers (R : RuntimeEnv) (S : StoreEnv) (s : MState) :
    Except ContainerManagerError (List Container) × MState :=
  match syncAll R S (mapList s.reg) s with
  | (.error e, s1) => (.error e, s1)
  | (.ok _, s1) => (.ok (mapList s1.reg), s1)

/-- One iteration of the reload loop (lines 163-202): read the state
file (on failure remove the directory and skip), add to the registry (on
conflict skip), sync with the runtime under the enumerated id (on
failure remove the directory and the registry entry and skip). -/
def reload_step (R : RuntimeEnv) (S : StoreEnv) (s : MState) (cid : String) :
    MState :=
  match store_read_container_state S s.disk cid with
  | .error _ => { s with disk := remove_container_directory s.disk cid }
  | .ok c =>
    match mapAdd s.reg c with
    | .error _ => s
    | .ok (_, reg1) =>
      let s1 : MState := { s with reg := reg1 }
      match sync_container_status_with_runtime R S s1 cid with
      | (.error _, s2) =>
        { reg := mapRemove s2.reg cid,
          disk := remove_container_directory s2.disk cid }
      | (.ok _, s2) => s2

/-- The reload loop over the enumerated ids. -/
def reload_list (R : RuntimeEnv) (S : StoreEnv) :
    List String → MState → MState
  | [], s => s
  | cid :: rest, s => reload_list R S rest (reload_step R S s cid)

/-- ContainerManager::reload (lines 157-204): enumerate ids, then run
the per-container loop; only the enumeration failure aborts. -/
def reload (R : RuntimeEnv) (S : StoreEnv) (s : MState) :
    Except ContainerManagerError MState :=
  match store_list_container_ids S s.disk with
  | .error e => .error (.ReloadError e)
  | .ok ids => .ok (reload_list R S ids s)

/-- ContainerManager::new (lines 137-149) over an existing root_dir: a
fresh empty registry reconciled against the given disk by reload. -/
def container_manager_new (R : RuntimeEnv) (S : StoreEnv) (disk : Disk) :
    Except ContainerManagerError MState :=
  reload R S { reg := [], disk := disk }

/-! Crash semantics of the atomic persist.  The steps of
store_atomic_persist touch the filesystem in this order: write the
serialized bytes into container.state.temp, then rename the temp file
onto container.state.  A crash can strike before the write, in the
middle of the write (leaving a byte prefix of the serialization, which
does not parse), after the write, or after the rename; the rename is
the single atomic commit point. -/

/-- Crash points of one run of store_atomic_persist. -/
inductive CrashPoint where
  | beforeWrite
  | midWrite
  | afterWrite
  | afterRename

/-- Effect on the container directory of running store_atomic_persist
for record c up to the given crash point. -/
def persistAtCrash (cp : CrashPoint) (c : Container) (d : CDir) : CDir :=
  match cp with
  | .beforeWrite => d
  | .midWrite => { d with temp := some .bad }
  | .afterWrite => { d with temp := some (.ok (encodeContainer c)) }
  | .afterRename => { d with state := some (.ok (encodeContainer c)), temp := none }

/-! Concrete oracles and states used to instantiate the theorems on
explicit inputs. -/

/-- Store oracle in which every filesystem call succeeds. -/
def allOkStore : StoreEnv :=
  { listOk := true
    createDirOk := fun _ => true
    rootfsDirOk := fun _ => true
    copyOk := fun _ => true
    writeOk := fun _ => true
    renameOk := fun _ => true
    readOk := fun _ => true }

/-- Runtime oracle in which every spawn succeeds with exit code 0 and
the state call reports a running container. -/
def allOkRuntime : RuntimeEnv :=
  { specSpawn := .ok 0
    sedArgsSpawn := .ok 0
    sedTermSpawn := .ok 0
    createSpawn := .ok ()
    startSpawn := fun _ => .ok ()
    killSpawn := fun _ => .ok 0
    deleteSpawn := fun _ => .ok 0
    stateCall := fun _ => .parsed "running" }

/-- Sample timestamp. -/
def t0 : SysTime := ⟨100, 5⟩

/-- Sample container in Paused status, which satisfies none of the
start, stop or delete preconditions. -/
def pausedC : Container :=
  { id := "a", name := "c1", status := .Paused, exit_code := -1,
    created_at := some t0, started_at := some t0,
    command := "/bin/echo", args := ["hi"] }

/-- Sample container in Created status. -/
def createdC : Container :=
  { id := "a", name := "c1", status := .Created, exit_code := -1,
    created_at := some t0, started_at := none,
    command := "/bin/echo", args := ["hi"] }

/-- Sample container in Running status under id b. -/
def runningC : Container :=
  { id := "b", name := "c2", status := .Running, exit_code := -1,
    created_at := some t0, started_at := some t0,
    command := "/bin/echo", args := ["hi"] }

/-- Sample container in Stopped status. -/
def stoppedC : Container :=
  { id := "a", name := "c1", status := .Stopped, exit_code := 0,
    created_at := some t0, started_at := some t0,
    command := "/bin/echo", args := ["hi"] }

/-- On-disk directory holding the serialized state of a container. -/
def dirOf (c : Container) : CDir :=
  { state := some (.ok (encodeContainer c)), temp := none, bundle := true }

/-- Runtime oracle whose start and kill spawns fail. -/
def startKillErrRuntime : RuntimeEnv :=
  { allOkRuntime with startSpawn := fun _ => .error 3, killSpawn := fun _ => .error 4 }

/-- Runtime oracle whose delete spawn fails. -/
def deleteErrRuntime : RuntimeEnv :=
  { allOkRuntime with deleteSpawn := fun _ => .error 7 }

/-- Runtime oracle whose runc spec child runs but exits with status 1
(the spawn itself succeeds). -/
def specExit1Runtime : RuntimeEnv :=
  { allOkRuntime with specSpawn := .ok 1 }

/-- Manager state holding a Created container a and a Running
container b, both persisted. -/
def sAB : MState :=
  { reg := [("a", createdC), ("b", runningC)],
    disk := [("a", dirOf createdC), ("b", dirOf runningC)] }

/-- Manager state holding only the Paused container a. -/
def sPaused : MState :=
  { reg := [("a", pausedC)], disk := [("a", dirOf pausedC)] }

/-- Manager state holding only the Stopped container a. -/
def sStopped : MState :=
  { reg := [("a", stoppedC)], disk := [("a", dirOf stoppedC)] }

/-- Create options of the happy-path scenario of the spec. -/
def opts1 : ContainerOptions :=
  { name := "c1", command := "/bin/echo", args := ["hi"], rootfs_path := "/fx" }

/-- Success test for Except results. -/
def exIsOk {ε α : Type} : Except ε α → Bool
  | .ok _ => true
  | .error _ => false

/-- Well-formedness of one on-disk entry: when its state file parses,
the recorded id is the directory basename. -/
def wfEntry (p : String × CDir) : Bool :=
  match p.2.state with
  | some (.ok j) =>
    match decodeContainer j with
    | some c => c.id == p.1
    | none => true
  | _ => true

/-- Well-formedness of a disk: every parseable state file records the id
of its own directory. -/
def wfDisk (disk0 : Disk) : Prop :=
  ∀ p ∈ disk0, wfEntry p = true

/-- Survival predicate of the reload loop for one enumerated id over the
starting disk: the state file reads and parses, the runtime status
lookup succeeds, and the persist of the synced status (temp write and
rename) succeeds. -/
def reloadGood (R : RuntimeEnv) (S : StoreEnv) (disk0 : Disk) (cid : String) :
    Bool :=
  exIsOk (store_read_container_state S disk0 cid) &&
  exIsOk (get_container_status R cid) &&
  S.writeOk cid && S.renameOk cid

/-- Cross-component invariant of the manager state: every registry id
has an on-disk directory, and every on-disk directory holds a parseable
state file and has a registry entry under its id. -/
def Inv (s : MState) : Prop :=
  (∀ cid c, lk s.reg cid = some c → (lk s.disk cid).isSome = true) ∧
  (∀ cid d, lk s.disk cid = some d →
    (∃ j c, d.state = some (.ok j) ∧ decodeContainer j = some c) ∧
    (lk s.reg cid).isSome = true)

/-- Disk with one well-formed persisted container a. -/
def goodDisk : Disk := [("a", dirOf stoppedC)]

/-- Disk whose single directory b2dir holds the state file of a
container recorded under id b. -/
def mismatchDisk : Disk := [("b2dir", dirOf runningC)]

/-- Store oracle whose temp-file writes fail. -/
def writeFailStore : StoreEnv := { allOkStore with writeOk := fun _ => false }

/-! Lemmas about the association-list primitives. -/

section AListLemmas

variable {α : Type}

@[simp] lemma lk_nil (k : String) : lk ([] : List (String × α)) k = none := rfl

@[simp] lemma lk_cons (k k' : String) (v : α) (t : List (String × α)) :
    lk ((k, v) :: t) k' = if k = k' then some v else lk t k' := rfl

@[simp] lemma lk_rmKey (l : List (String × α)) (k k' : String) :
    lk (rmKey l k) k' = if k = k' then none else lk l k' := by
  induction l with
  | nil => simp [rmKey]
  | cons p t ih =>
    obtain ⟨pk, pv⟩ := p
    show lk (if pk = k then rmKey t k else (pk, pv) :: rmKey t k) k' = _
    by_cases h1 : pk = k <;> by_cases h2 : pk = k'
    · subst h1; subst h2
      simp [ih]
    · subst h1
      simp [h2, ih]
    · subst h2
      have hk : ¬k = pk := fun h => h1 h.symm
      simp [h1, hk]
    · simp [h1, h2, ih]

@[simp] lemma lk_updKey (l : List (String × α)) (k k' : String) (f : α → α) :
    lk (updKey l k f) k' = if k = k' then (lk l k').map f else lk l k' := by
  induction l with
  | nil => simp [updKey]
  | cons p t ih =>
    obtain ⟨pk, pv⟩ := p
    show lk ((if pk = k then (pk, f pv) else (pk, pv)) :: updKey t k f) k' = _
    by_cases h1 : pk = k <;> by_cases h2 : pk = k'
    · subst h1; subst h2
      simp [ih]
    · subst h1
      simp [h2, ih]
    · subst h2
      have hk : ¬k = pk := fun h => h1 h.symm
      simp [h1, hk]
    · simp [h1, h2, ih]

lemma lk_some_mem {l : List (String × α)} {k : String} {v : α}
    (h : lk l k = some v) : (k, v) ∈ l := by
  induction l with
  | nil => simp [lk] at h
  | cons p t ih =>
    obtain ⟨pk, pv⟩ := p
    by_cases h1 : pk = k
    · subst h1
      simp [lk] at h
      simp [h]
    · simp [lk, h1] at h
      exact List.mem_cons_of_mem _ (ih h)

lemma rmKey_idem (l : List (String × α)) (k : String) :
    rmKey (rmKey l k) k = rmKey l k := by
  induction l with
  | nil => rfl
  | cons p t ih =>
    obtain ⟨pk, pv⟩ := p
    by_cases h1 : pk = k <;> simp [rmKey, h1, ih]

lemma rmKey_of_lk_none (l : List (String × α)) (k : String)
    (h : lk l k = none) : rmKey l k = l := by
  induction l with
  | nil => rfl
  | cons p t ih =>
    obtain ⟨pk, pv⟩ := p
    by_cases h1 : pk = k
    · simp [lk, h1] at h
    · simp [lk, h1] at h
      simp [rmKey, h1, ih h]

lemma rmKey_updKey (l : List (String × α)) (k : String) (f : α → α) :
    rmKey (updKey l k f) k = rmKey l k := by
  induction l with
  | nil => rfl
  | cons p t ih =>
    obtain ⟨pk, pv⟩ := p
    show rmKey ((if pk = k then (pk, f pv) else (pk, pv)) :: updKey t k f) k = _
    by_cases h1 : pk = k
    · subst h1
      rw [if_pos rfl]
      simp [rmKey, ih]
    · rw [if_neg h1]
      simp [rmKey, h1, ih]

lemma lk_none_iff_keys (l : List (String × α)) (k : String) :
    lk l k = none ↔ k ∉ l.map Prod.fst := by
  induction l with
  | nil => simp
  | cons p t ih =>
    obtain ⟨pk, pv⟩ := p
    by_cases h1 : pk = k
    · simp [lk, h1]
    · have h1' : ¬k = pk := fun h => h1 h.symm
      simp [lk, h1, h1', ih]

end AListLemmas

/-! Round-trip lemmas for the JSON encoding of records. -/

lemma decodeStatus_encodeStatus (st : Status) :
    decodeStatus (encodeStatus st) = some st := by
  cases st <;> rfl

lemma decodeTime_encodeTime (t : SysTime) :
    decodeTime (encodeTime t) = some t := by
  rfl

lemma decodeOptTime_encodeOptTime (o : Option SysTime) :
    decodeOptTime (encodeOptTime o) = some o := by
  cases o with
  | none => rfl
  | some t => rfl

lemma decodeStrList_map (l : List String) :
    decodeStrList (l.map .str) = some l := by
  induction l with
  | nil => rfl
  | cons h t ih => simp [decodeStrList, decodeStr, ih]

/-- Round trip: decoding an encoded Container record restores the record
exactly, whatever the combination of present and absent optional
timestamps. -/
lemma decode_encode (c : Container) :
    decodeContainer (encodeContainer c) = some c := by
  obtain ⟨cid, name, st, ec, ca, sa, cmd, args⟩ := c
  simp only [encodeContainer, decodeContainer, jlookup]
  simp [decodeStr, decodeInt, decodeStatus_encodeStatus,
    decodeOptTime_encodeOptTime, decodeStrList_map]

/-! Lemmas about the store read. -/

/-- Reading a state file only inspects the directory entry of the id. -/
lemma read_congr (S : StoreEnv) (disk disk' : Disk) (cid : String)
    (h : lk disk cid = lk disk' cid) :
    store_read_container_state S disk cid =
    store_read_container_state S disk' cid := by
  unfold store_read_container_state
  rw [h]

/-- A successful state read exposes the directory, the readable flag,
the parseable state file and the decoded record. -/
lemma read_ok_elim (S : StoreEnv) (disk : Disk) (cid : String) (c : Container)
    (h : store_read_container_state S disk cid = .ok c) :
    ∃ d j, lk disk cid = some d ∧ S.readOk cid = true ∧
      d.state = some (.ok j) ∧ decodeContainer j = some c := by
  unfold store_read_container_state at h
  split at h
  · cases h
  · rename_i d hlk
    split at h
    · rename_i hro
      split at h
      · cases h
      · cases h
      · rename_i j hst
        split at h
        · cases h
        · rename_i c' hdec
          cases h
          exact ⟨d, j, hlk, hro, hst, hdec⟩
    · cases h

/-- On a well-formed disk, a parseable state file records the id of its
directory. -/
lemma wf_apply (disk0 : Disk) (cid : String) (d : CDir) (j : Json)
    (c : Container) (hwf : wfDisk disk0) (hlk : lk disk0 cid = some d)
    (hst : d.state = some (.ok j)) (hdec : decodeContainer j = some c) :
    c.id = cid := by
  have hm := hwf (cid, d) (lk_some_mem hlk)
  simp only [wfEntry, hst, hdec, beq_iff_eq] at hm
  exact hm

/-! Helper lemmas about the create flow. -/

lemma containsKey_false_iff {α : Type} (l : List (String × α)) (k : String) :
    containsKey l k = false ↔ lk l k = none := by
  unfold containsKey
  cases lk l k <;> simp

lemma containsKey_true_iff {α : Type} (l : List (String × α)) (k : String) :
    containsKey l k = true ↔ (lk l k).isSome = true := by
  unfold containsKey
  cases lk l k <;> simp

/-- Elimination of a successful directory creation. -/
lemma create_dir_ok_elim (S : StoreEnv) (disk : Disk) (cid : String)
    (disk' : Disk) (h : create_container_directory S disk cid = .ok disk') :
    lk disk cid = none ∧ disk' = (cid, emptyCDir) :: disk := by
  unfold create_container_directory at h
  split at h
  · cases h
  · rename_i hck
    split at h
    · cases h
      refine ⟨?_, rfl⟩
      rw [← containsKey_false_iff]
      exact Bool.not_eq_true _ ▸ (by simpa using hck)
    · cases h

/-- Elimination of a successful bundle creation. -/
lemma bundle_ok_elim (S : StoreEnv) (disk : Disk) (cid : String) (u : Unit)
    (disk' : Disk) (h : create_container_bundle S disk cid = (.ok u, disk')) :
    disk' = (if containsKey disk cid then
               updKey disk cid (fun d => { d with bundle := true })
             else
               (cid, { emptyCDir with bundle := true }) :: disk) := by
  unfold create_container_bundle at h
  by_cases hroot : S.rootfsDirOk cid = true
  · by_cases hcopy : S.copyOk cid = true
    · rw [if_pos hroot] at h
      simp only [hcopy, if_true] at h
      simp only [Prod.mk.injEq] at h
      exact h.2.symm
    · rw [if_pos hroot] at h
      simp only [hcopy] at h
      simp at h
  · rw [if_neg hroot] at h
    simp at h

/-- Elimination of a successful created_at field update. -/
lemma mapUpdCa_ok_elim (reg : Registry) (cid : String) (now : SysTime)
    (reg' : Registry) (h : mapUpdateCreationTime reg cid now = .ok reg') :
    reg' = updKey reg cid (fun c => { c with created_at := some now }) := by
  unfold mapUpdateCreationTime at h
  split at h
  · cases h
    rfl
  · cases h

/-- Elimination of a successful status field update. -/
lemma mapUpdSt_ok_elim (reg : Registry) (cid : String) (st : Status)
    (reg' : Registry) (h : mapUpdateStatus reg cid st = .ok reg') :
    reg' = updKey reg cid (fun c => { c with status := st }) := by
  unfold mapUpdateStatus at h
  split at h
  · cases h
    rfl
  · cases h

/-- Elimination of a successful created_at update on the manager
state. -/
lemma updCaM_ok_elim (s : MState) (cid : String) (now : SysTime) (s' : MState)
    (h : update_container_created_atM s cid now = .ok s') :
    s' = { s with
           reg := updKey s.reg cid (fun c => { c with created_at := some now }) } := by
  unfold update_container_created_atM at h
  split at h
  · cases h
  · rename_i reg1 hm
    cases h
    rw [mapUpdCa_ok_elim s.reg cid now reg1 hm]

/-- Elimination of a successful status update on the manager state. -/
lemma updStM_ok_elim (s : MState) (cid : String) (st : Status) (s' : MState)
    (h : update_container_statusM s cid st = .ok s') :
    s' = { s with reg := updKey s.reg cid (fun c => { c with status := st }) } := by
  unfold update_container_statusM at h
  split at h
  · cases h
  · rename_i reg1 hm
    cases h
    rw [mapUpdSt_ok_elim s.reg cid st reg1 hm]

/-- Elimination of a successful manager-level persist. -/
lemma persistM_ok_elim (S : StoreEnv) (s : MState) (cid : String) (u : Unit)
    (s' : MState) (h : atomic_persist_container_stateM S s cid = (.ok u, s')) :
    ∃ c, lk s.reg cid = some c ∧ (lk s.disk c.id).isSome = true ∧
      S.writeOk c.id = true ∧ S.renameOk c.id = true ∧
      s' = { s with disk := (updKey s.disk c.id (fun d =>
               { d with state := some (.ok (encodeContainer c)), temp := none })) } := by
  unfold atomic_persist_container_stateM at h
  split at h
  · simp at h
  · rename_i c hc
    split at h
    · simp at h
    · rename_i a d1 hd1
      have hlk : lk s.reg cid = some c := by
        unfold mapGet at hc
        split at hc
        · cases hc
        · rename_i c' hc'
          cases hc
          exact hc'
      simp only [store_atomic_persist] at hd1
      split at hd1
      · simp at hd1
      · rename_i dd hdd
        split at hd1
        · rename_i hw
          split at hd1
          · rename_i hr
            simp only [Prod.mk.injEq] at hd1 h
            refine ⟨c, hlk, ?_, hw, hr, ?_⟩
            · rw [hdd]; rfl
            · rw [← h.2, ← hd1.2]
          · simp at hd1
        · simp at hd1

/-- The id handed back by a successful registry insert is the id of the
inserted container. -/
lemma mapAdd_ok_id (reg : Registry) (c : Container) (cid : String)
    (reg1 : Registry) (h : mapAdd reg c = .ok (cid, reg1)) :
    cid = c.id ∧ reg1 = (c.id, c) :: reg := by
  unfold mapAdd at h
  split at h
  · cases h
  · simp only [Except.ok.injEq, Prod.mk.injEq] at h
    exact ⟨h.1.symm, h.2.symm⟩

/-- Every failure of create_container_helper reports the generated id as
the id to roll back. -/
lemma helper_error_id (R : RuntimeEnv) (S : StoreEnv) (opts : ContainerOptions)
    (gen_id : String) (now : SysTime) (s : MState)
    (p : InternalCreateContainerError) (s1 : MState)
    (h : create_container_helper R S opts gen_id now s = (.error p, s1)) :
    p.container_id = gen_id := by
  simp only [create_container_helper] at h
  rcases hadd : mapAdd s.reg (new_container gen_id opts.name opts.command opts.args)
    with eadd | ⟨cid, reg1⟩
  · rw [hadd] at h
    simp only [Prod.mk.injEq, Except.error.injEq] at h
    obtain ⟨h1, h2⟩ := h
    subst h1
    rfl
  · have hcid : cid = gen_id := (mapAdd_ok_id s.reg _ cid reg1 hadd).1
    subst hcid
    rw [hadd] at h
    repeat' split at h
    all_goals first
      | (simp only [Prod.mk.injEq, Except.error.injEq] at h
         obtain ⟨h1, h2⟩ := h
         subst h1
         first
           | rfl
           | simp_all)
      | simp at h

/-- The bundle step only touches the directory entry of the id, whether
it succeeds or fails. -/
lemma bundle_state (S : StoreEnv) (disk : Disk) (cid : String)
    (r : Except ContainerStoreError Unit) (disk' : Disk)
    (h : create_container_bundle S disk cid = (r, disk'))
    (cid' : String) (hne : cid' ≠ cid) : lk disk' cid' = lk disk cid' := by
  have hne' : ¬cid = cid' := fun hx => hne hx.symm
  unfold create_container_bundle at h
  by_cases hroot : S.rootfsDirOk cid = true
  · rw [if_pos hroot] at h
    by_cases hcopy : S.copyOk cid = true
    · simp only [hcopy, if_true, Prod.mk.injEq] at h
      obtain ⟨h1, h2⟩ := h
      subst h2
      by_cases hck : containsKey disk cid = true <;>
        simp [hck, lk_updKey, lk_cons, hne']
    · simp only [hcopy, Bool.false_eq_true, if_false, Prod.mk.injEq] at h
      obtain ⟨h1, h2⟩ := h
      subst h2
      by_cases hck : containsKey disk cid = true <;>
        simp [hck, lk_updKey, lk_cons, hne']
  · rw [if_neg hroot] at h
    simp only [Prod.mk.injEq] at h
    obtain ⟨h1, h2⟩ := h
    subst h2
    rfl

/-- The manager-level persist, whatever its outcome, keeps the registry
and touches only the directory entry of the persisted record's id. -/
lemma persistM_state (S : StoreEnv) (s : MState) (cid : String) (c : Container)
    (hc : lk s.reg cid = some c) (hid : c.id = cid)
    (r : Except ContainerManagerError Unit)
    (s' : MState) (h : atomic_persist_container_stateM S s cid = (r, s')) :
    s'.reg = s.reg ∧
    ∀ cid', cid' ≠ cid → lk s'.disk cid' = lk s.disk cid' := by
  unfold atomic_persist_container_stateM at h
  simp only [mapGet, hc] at h
  simp only [store_atomic_persist] at h
  rcases hd : lk s.disk c.id with _ | d
  · simp only [hd, Prod.mk.injEq] at h
    obtain ⟨h1, h2⟩ := h
    subst h2
    exact ⟨rfl, fun _ _ => rfl⟩
  · simp only [hd] at h
    by_cases hw : S.writeOk c.id = true
    · by_cases hr : S.renameOk c.id = true
      · simp only [hw, hr, if_true, Prod.mk.injEq] at h
        obtain ⟨h1, h2⟩ := h
        subst h2
        refine ⟨rfl, ?_⟩
        intro cid' hne
        have hne' : ¬c.id = cid' := fun hx => hne ((hid.symm.trans hx).symm)
        simp [lk_updKey, hne']
      · simp only [hw, hr, Bool.false_eq_true, if_true, if_false,
          Prod.mk.injEq] at h
        obtain ⟨h1, h2⟩ := h
        subst h2
        refine ⟨rfl, ?_⟩
        intro cid' hne
        have hne' : ¬c.id = cid' := fun hx => hne ((hid.symm.trans hx).symm)
        simp [lk_updKey, hne']
    · simp only [hw, Bool.false_eq_true, if_false, Prod.mk.injEq] at h
      obtain ⟨h1, h2⟩ := h
      subst h2
      refine ⟨rfl, ?_⟩
      intro cid' hne
      have hne' : ¬c.id = cid' := fun hx => hne ((hid.symm.trans hx).symm)
      simp [lk_updKey, hne']

/-- Full characterization of one run of the create helper: only the
entries of the generated id are touched, and on success the generated id
maps to a Created record whose serialization is the committed state file
of its bundle directory. -/
lemma helper_spec (R : RuntimeEnv) (S : StoreEnv) (opts : ContainerOptions)
    (gid : String) (now : SysTime) (s : MState) :
    ∀ (r : Except InternalCreateContainerError String) (s9 : MState),
      create_container_helper R S opts gid now s = (r, s9) →
      (∀ cid, cid ≠ gid →
        lk s9.reg cid = lk s.reg cid ∧ lk s9.disk cid = lk s.disk cid) ∧
      (∀ cid0, r = .ok cid0 →
        cid0 = gid ∧ ∃ c : Container, c.id = gid ∧ lk s9.reg gid = some c ∧
          lk s9.disk gid = some ⟨some (.ok (encodeContainer c)), none, true⟩) := by
  intro r s9 h
  simp only [create_container_helper] at h
  rcases hadd : mapAdd s.reg (new_container gid opts.name opts.command opts.args)
    with eadd | pr
  · simp only [hadd, Prod.mk.injEq] at h
    obtain ⟨h1, h2⟩ := h
    subst h1
    subst h2
    refine ⟨fun cid hne => ⟨rfl, rfl⟩, fun cid0 hok => by simp at hok⟩
  · obtain ⟨cid1, reg1⟩ := pr
    obtain ⟨hcid1, hreg1⟩ :=
      mapAdd_ok_id s.reg (new_container gid opts.name opts.command opts.args)
        cid1 reg1 hadd
    have hcid1' : gid = cid1 := (show cid1 = gid from hcid1).symm
    subst hcid1'
    have hreg1' : reg1 =
        (gid, new_container gid opts.name opts.command opts.args) :: s.reg := hreg1
    subst hreg1'
    simp only [hadd] at h
    rcases hdir : create_container_directory S s.disk gid with edir | disk1
    · simp only [hdir, Prod.mk.injEq] at h
      obtain ⟨h1, h2⟩ := h
      subst h1
      subst h2
      refine ⟨?_, fun cid0 hok => by simp at hok⟩
      intro cid hne
      have hne' : ¬gid = cid := fun hx => hne hx.symm
      exact ⟨by simp [lk_cons, hne'], rfl⟩
    · obtain ⟨hdn, hdisk1⟩ := create_dir_ok_elim S s.disk gid disk1 hdir
      subst hdisk1
      simp only [hdir] at h
      rcases hbun : create_container_bundle S ((gid, emptyCDir) :: s.disk) gid
        with ⟨rb, disk2⟩
      have hbframe := fun cid' hne =>
        bundle_state S ((gid, emptyCDir) :: s.disk) gid rb disk2 hbun cid' hne
      cases rb with
      | error eb =>
        simp only [hbun, Prod.mk.injEq] at h
        obtain ⟨h1, h2⟩ := h
        subst h1
        subst h2
        refine ⟨?_, fun cid0 hok => by simp at hok⟩
        intro cid hne
        have hne' : ¬gid = cid := fun hx => hne hx.symm
        refine ⟨by simp [lk_cons, hne'], ?_⟩
        rw [hbframe cid hne]
        simp [lk_cons, hne']
      | ok ub =>
        simp only [hbun] at h
        have hdisk2 : disk2 =
            updKey ((gid, emptyCDir) :: s.disk) gid
              (fun d => { d with bundle := true }) := by
          have := bundle_ok_elim S ((gid, emptyCDir) :: s.disk) gid ub disk2 hbun
          rwa [if_pos (by simp [containsKey, lk_cons])] at this
        rcases hspec : new_runtime_spec R with es | us
        · simp only [hspec, Prod.mk.injEq] at h
          obtain ⟨h1, h2⟩ := h
          subst h1
          subst h2
          refine ⟨?_, fun cid0 hok => by simp at hok⟩
          intro cid hne
          have hne' : ¬gid = cid := fun hx => hne hx.symm
          refine ⟨by simp [lk_cons, hne'], ?_⟩
          rw [hbframe cid hne]
          simp [lk_cons, hne']
        · simp only [hspec] at h
          rcases hcr : runtime_create_container R with ec | uc
          · simp only [hcr, Prod.mk.injEq] at h
            obtain ⟨h1, h2⟩ := h
            subst h1
            subst h2
            refine ⟨?_, fun cid0 hok => by simp at hok⟩
            intro cid hne
            have hne' : ¬gid = cid := fun hx => hne hx.symm
            refine ⟨by simp [lk_cons, hne'], ?_⟩
            rw [hbframe cid hne]
            simp [lk_cons, hne']
          · simp only [hcr] at h
            split at h
            · rename_i eca hca
              simp only [Prod.mk.injEq] at h
              obtain ⟨h1, h2⟩ := h
              subst h1
              subst h2
              refine ⟨?_, fun cid0 hok => by simp at hok⟩
              intro cid hne
              have hne' : ¬gid = cid := fun hx => hne hx.symm
              refine ⟨by simp [lk_cons, hne'], ?_⟩
              rw [hbframe cid hne]
              simp [lk_cons, hne']
            · rename_i s4 hca
              have hs4 := updCaM_ok_elim _ gid now s4 hca
              subst hs4
              split at h
              · rename_i est hst
                simp only [Prod.mk.injEq] at h
                obtain ⟨h1, h2⟩ := h
                subst h1
                subst h2
                refine ⟨?_, fun cid0 hok => by simp at hok⟩
                intro cid hne
                have hne' : ¬gid = cid := fun hx => hne hx.symm
                refine ⟨by simp [lk_updKey, lk_cons, hne'], ?_⟩
                rw [hbframe cid hne]
                simp [lk_cons, hne']
              · rename_i s5 hst
                have hs5 := updStM_ok_elim _ gid .Created s5 hst
                subst hs5
                have hc5 : lk (updKey (updKey
                    ((gid, new_container gid opts.name opts.command opts.args)
                      :: s.reg) gid
                    (fun c => { c with created_at := some now })) gid
                    (fun c => { c with status := Status.Created })) gid =
                    some { new_container gid opts.name opts.command opts.args with
                           created_at := some now, status := Status.Created } := by
                  simp [lk_updKey, lk_cons]
                split at h
                · rename_i eper s6' hper
                  simp only [Prod.mk.injEq] at h
                  obtain ⟨h1, h2⟩ := h
                  subst h1
                  subst h2
                  obtain ⟨hpreg, hpdisk⟩ := persistM_state S _ gid _ hc5 (by rfl) _ s6' hper
                  refine ⟨?_, fun cid0 hok => by simp at hok⟩
                  intro cid hne
                  have hne' : ¬gid = cid := fun hx => hne hx.symm
                  constructor
                  · rw [hpreg]
                    simp [lk_updKey, lk_cons, hne']
                  · rw [hpdisk cid hne]
                    rw [hdisk2]
                    simp [lk_updKey, lk_cons, hne']
                · rename_i uper s6' hper
                  simp only [Prod.mk.injEq, Except.ok.injEq] at h
                  obtain ⟨h1, h2⟩ := h
                  subst h2
                  obtain ⟨hpreg, hpdisk⟩ := persistM_state S _ gid _ hc5 (by rfl) _ s6' hper
                  obtain ⟨c6, hc6, hd6, hw6, hr6, hs9⟩ :=
                    persistM_ok_elim S _ gid uper s6' hper
                  rw [hc5] at hc6
                  cases hc6
                  constructor
                  · intro cid hne
                    have hne' : ¬gid = cid := fun hx => hne hx.symm
                    constructor
                    · rw [hpreg]
                      simp [lk_updKey, lk_cons, hne']
                    · rw [hpdisk cid hne]
                      rw [hdisk2]
                      simp [lk_updKey, lk_cons, hne']
                  · intro cid0 hok
                    rw [← h1] at hok
                    refine ⟨(show gid = cid0 by simpa using hok).symm, ?_⟩
                    refine ⟨{ new_container gid opts.name opts.command opts.args with
                      created_at := some now, status := Status.Created }, ?_, ?_, ?_⟩
                    · rfl
                    · subst hs9
                      exact hc5
                    · subst hs9
                      rw [hdisk2]
                      simp [lk_updKey, lk_cons, emptyCDir, new_container]

/-- Elimination of a successful started_at field update. -/
lemma mapUpdSta_ok_elim (reg : Registry) (cid : String) (t : SysTime)
    (reg' : Registry) (h : mapUpdateStartTime reg cid t = .ok reg') :
    reg' = updKey reg cid (fun c => { c with started_at := some t }) := by
  unfold mapUpdateStartTime at h
  split at h
  · cases h
    rfl
  · cases h

/-- Elimination of a successful started_at update on the manager
state. -/
lemma updStaM_ok_elim (s : MState) (cid : String) (t : SysTime) (s' : MState)
    (h : update_container_started_atM s cid t = .ok s') :
    s' = { s with
           reg := updKey s.reg cid (fun c => { c with started_at := some t }) } := by
  unfold update_container_started_atM at h
  split at h
  · cases h
  · rename_i reg1 hm
    cases h
    rw [mapUpdSta_ok_elim s.reg cid t reg1 hm]

/-! Preservation of the cross-component invariant. -/

/-- Removing an id from both the registry and the disk preserves the
invariant. -/
lemma Inv_rm_both (s : MState) (k : String) (h : Inv s) :
    Inv ⟨mapRemove s.reg k, remove_container_directory s.disk k⟩ := by
  obtain ⟨h1, h2⟩ := h
  constructor
  · intro cid c hc
    simp only [mapRemove, lk_rmKey] at hc
    by_cases hk : k = cid
    · simp [hk] at hc
    · rw [if_neg hk] at hc
      have := h1 cid c hc
      simp only [remove_container_directory, lk_rmKey]
      rw [if_neg hk]
      exact this
  · intro cid d hd
    simp only [remove_container_directory, lk_rmKey] at hd
    by_cases hk : k = cid
    · simp [hk] at hd
    · rw [if_neg hk] at hd
      obtain ⟨hp, hr⟩ := h2 cid d hd
      refine ⟨hp, ?_⟩
      simp only [mapRemove, lk_rmKey]
      rw [if_neg hk]
      exact hr

/-- Updating registry fields in place preserves the invariant. -/
lemma Inv_updKey_reg (s : MState) (k : String) (f : Container → Container)
    (h : Inv s) : Inv { s with reg := updKey s.reg k f } := by
  obtain ⟨h1, h2⟩ := h
  constructor
  · intro cid c hc
    simp only [lk_updKey] at hc
    by_cases hk : k = cid
    · rw [if_pos hk] at hc
      rcases hm : lk s.reg cid with _ | c0
      · rw [hm] at hc; simp at hc
      · exact h1 cid c0 hm
    · rw [if_neg hk] at hc
      exact h1 cid c hc
  · intro cid d hd
    obtain ⟨hp, hr⟩ := h2 cid d hd
    refine ⟨hp, ?_⟩
    simp only [lk_updKey]
    by_cases hk : k = cid
    · rw [if_pos hk]
      simpa using hr
    · rw [if_neg hk]
      exact hr

/-- Updating a directory in place preserves the invariant as long as the
update keeps the state file or replaces it by a parseable one. -/
lemma Inv_updKey_disk (s : MState) (k : String) (f : CDir → CDir)
    (hf : ∀ d, (f d).state = d.state ∨
      ∃ j c, (f d).state = some (.ok j) ∧ decodeContainer j = some c)
    (h : Inv s) : Inv { s with disk := updKey s.disk k f } := by
  obtain ⟨h1, h2⟩ := h
  constructor
  · intro cid c hc
    have := h1 cid c hc
    simp only [lk_updKey]
    by_cases hk : k = cid
    · rw [if_pos hk]
      simpa using this
    · rw [if_neg hk]
      exact this
  · intro cid d hd
    simp only [lk_updKey] at hd
    by_cases hk : k = cid
    · rw [if_pos hk] at hd
      rcases hm : lk s.disk cid with _ | d0
      · rw [hm] at hd; simp at hd
      · rw [hm] at hd
        simp only [Option.map_some', Option.some.injEq] at hd
        obtain ⟨⟨j0, c0, hj0, hc0⟩, hrg⟩ := h2 cid d0 hm
        subst hd
        rcases hf d0 with hsame | ⟨j, c, hj, hc⟩
        · exact ⟨⟨j0, c0, hsame.trans hj0, hc0⟩, hrg⟩
        · exact ⟨⟨j, c, hj, hc⟩, hrg⟩
    · rw [if_neg hk] at hd
      exact h2 cid d hd

/-- The manager-level persist preserves the invariant, whatever its
outcome. -/
lemma Inv_persistM (S : StoreEnv) (s : MState) (cid : String)
    (r : Except ContainerManagerError Unit) (s' : MState)
    (h : atomic_persist_container_stateM S s cid = (r, s')) (hI : Inv s) :
    Inv s' := by
  unfold atomic_persist_container_stateM at h
  split at h
  · simp only [Prod.mk.injEq] at h
    obtain ⟨-, h2⟩ := h
    subst h2
    exact hI
  · rename_i c hc
    split at h
    · rename_i e d1 hd1
      simp only [Prod.mk.injEq] at h
      obtain ⟨-, h2⟩ := h
      subst h2
      simp only [store_atomic_persist] at hd1
      split at hd1
      · simp only [Prod.mk.injEq] at hd1
        obtain ⟨-, hdx⟩ := hd1
        subst hdx
        exact hI
      · rename_i dd hdd
        split at hd1
        · rename_i hw
          split at hd1
          · simp at hd1
          · simp only [Prod.mk.injEq] at hd1
            obtain ⟨-, hdx⟩ := hd1
            subst hdx
            exact Inv_updKey_disk s c.id _ (fun d => Or.inl rfl) hI
        · simp only [Prod.mk.injEq] at hd1
          obtain ⟨-, hdx⟩ := hd1
          subst hdx
          exact Inv_updKey_disk s c.id _ (fun d => Or.inl rfl) hI
    · rename_i u d1 hd1
      simp only [Prod.mk.injEq] at h
      obtain ⟨-, h2⟩ := h
      subst h2
      simp only [store_atomic_persist] at hd1
      split at hd1
      · simp at hd1
      · rename_i dd hdd
        split at hd1
        · rename_i hw
          split at hd1
          · simp only [Prod.mk.injEq] at hd1
            obtain ⟨-, hdx⟩ := hd1
            subst hdx
            exact Inv_updKey_disk s c.id _
              (fun d => Or.inr ⟨encodeContainer c, c, rfl, decode_encode c⟩) hI
          · simp at hd1
        · simp at hd1

/-- The runtime sync preserves the invariant, whatever its outcome. -/
lemma Inv_sync (R : RuntimeEnv) (S : StoreEnv) (s : MState) (cid : String)
    (r : Except ContainerManagerError Unit) (s' : MState)
    (h : sync_container_status_with_runtime R S s cid = (r, s'))
    (hI : Inv s) : Inv s' := by
  unfold sync_container_status_with_runtime at h
  split at h
  · simp only [Prod.mk.injEq] at h
    obtain ⟨-, h2⟩ := h
    subst h2
    exact hI
  · rename_i st hst
    split at h
    · simp only [Prod.mk.injEq] at h
      obtain ⟨-, h2⟩ := h
      subst h2
      exact hI
    · rename_i s1 hupd
      have hs1 := updStM_ok_elim s cid st s1 hupd
      subst hs1
      exact Inv_persistM S _ cid r s' h (Inv_updKey_reg s cid _ hI)

/-- start_container preserves the invariant, whatever its outcome. -/
lemma Inv_start (R : RuntimeEnv) (S : StoreEnv) (s : MState) (cid : String)
    (now : SysTime) (r : Except ContainerManagerError Unit) (s' : MState)
    (h : start_container R S s cid now = (r, s')) (hI : Inv s) : Inv s' := by
  unfold start_container at h
  rcases hget : mapGet s.reg cid with e | c
  · simp only [hget, Prod.mk.injEq] at h
    obtain ⟨-, h2⟩ := h
    subst h2
    exact hI
  · simp only [hget] at h
    by_cases hq : c.status = Status.Created
    · rw [if_neg (by simp [hq])] at h
      rcases hrt : runtime_start_container R cid with e | u
      · simp only [hrt, Prod.mk.injEq] at h
        obtain ⟨-, h2⟩ := h
        subst h2
        exact hI
      · simp only [hrt] at h
        rcases hsta : update_container_started_atM s cid now with e | s1
        · simp only [hsta, Prod.mk.injEq] at h
          obtain ⟨-, h2⟩ := h
          subst h2
          exact hI
        · simp only [hsta] at h
          have h1 := updStaM_ok_elim s cid now s1 hsta
          subst h1
          split at h
          · simp only [Prod.mk.injEq] at h
            obtain ⟨-, h2⟩ := h
            subst h2
            exact Inv_updKey_reg s cid _ hI
          · rename_i s2 hstu
            have h2e := updStM_ok_elim _ cid .Running s2 hstu
            subst h2e
            exact Inv_persistM S _ cid r s' h
              (Inv_updKey_reg _ cid _ (Inv_updKey_reg s cid _ hI))
    · rw [if_pos hq] at h
      simp only [Prod.mk.injEq] at h
      obtain ⟨-, h2⟩ := h
      subst h2
      exact hI

/-- stop_container preserves the invariant, whatever its outcome. -/
lemma Inv_stop (R : RuntimeEnv) (S : StoreEnv) (s : MState) (cid : String)
    (r : Except ContainerManagerError Unit) (s' : MState)
    (h : stop_container R S s cid = (r, s')) (hI : Inv s) : Inv s' := by
  unfold stop_container at h
  rcases hget : mapGet s.reg cid with e | c
  · simp only [hget, Prod.mk.injEq] at h
    obtain ⟨-, h2⟩ := h
    subst h2
    exact hI
  · simp only [hget] at h
    by_cases hq : c.status = Status.Running
    · rw [if_neg (by simp [hq])] at h
      rcases hrt : runtime_kill_container R cid with e | u
      · simp only [hrt, Prod.mk.injEq] at h
        obtain ⟨-, h2⟩ := h
        subst h2
        exact hI
      · simp only [hrt] at h
        split at h
        · simp only [Prod.mk.injEq] at h
          obtain ⟨-, h2⟩ := h
          subst h2
          exact hI
        · rename_i s1 hstu
          have h1 := updStM_ok_elim s cid .Stopped s1 hstu
          subst h1
          exact Inv_persistM S _ cid r s' h (Inv_updKey_reg s cid _ hI)
    · rw [if_pos hq] at h
      simp only [Prod.mk.injEq] at h
      obtain ⟨-, h2⟩ := h
      subst h2
      exact hI

/-- delete_container preserves the invariant, whatever its outcome. -/
lemma Inv_delete (R : RuntimeEnv) (s : MState) (cid : String)
    (r : Except ContainerManagerError Unit) (s' : MState)
    (h : delete_container R s cid = (r, s')) (hI : Inv s) : Inv s' := by
  unfold delete_container at h
  rcases hget : mapGet s.reg cid with e | c
  · simp only [hget, Prod.mk.injEq] at h
    obtain ⟨-, h2⟩ := h
    subst h2
    exact hI
  · simp only [hget] at h
    by_cases hq : c.status ≠ Status.Stopped ∧ c.status ≠ Status.Created
    · rw [if_pos hq] at h
      simp only [Prod.mk.injEq] at h
      obtain ⟨-, h2⟩ := h
      subst h2
      exact hI
    · rw [if_neg hq] at h
      rcases hrt : runtime_delete_container R cid with e | u
      · simp only [hrt, Prod.mk.injEq] at h
        obtain ⟨-, h2⟩ := h
        subst h2
        exact hI
      · simp only [hrt, Prod.mk.injEq] at h
        obtain ⟨-, h2⟩ := h
        subst h2
        exact Inv_rm_both s cid hI

/-- get_container preserves the invariant, whatever its outcome. -/
lemma Inv_get (R : RuntimeEnv) (S : StoreEnv) (s : MState) (cid : String)
    (r : Except ContainerManagerError Container) (s' : MState)
    (h : get_container R S s cid = (r, s')) (hI : Inv s) : Inv s' := by
  unfold get_container at h
  rcases hsy : sync_container_status_with_runtime R S s cid with ⟨rs, s1⟩
  have hI1 := Inv_sync R S s cid rs s1 hsy hI
  simp only [hsy] at h
  cases rs with
  | error e =>
    simp only [Prod.mk.injEq] at h
    obtain ⟨-, h2⟩ := h
    subst h2
    exact hI1
  | ok u =>
    rcases hget : mapGet s1.reg cid with e | c <;>
      simp only [hget, Prod.mk.injEq] at h <;>
      (obtain ⟨-, h2⟩ := h; subst h2; exact hI1)

/-- The fail-fast sync loop of list_containers preserves the
invariant. -/
lemma Inv_syncAll (R : RuntimeEnv) (S : StoreEnv) :
    ∀ (l : List Container) (s : MState) (r : Except ContainerManagerError Unit)
      (s' : MState), syncAll R S l s = (r, s') → Inv s → Inv s'
  | [], s, r, s', h, hI => by
      unfold syncAll at h
      simp only [Prod.mk.injEq] at h
      obtain ⟨-, h2⟩ := h
      subst h2
      exact hI
  | c :: t, s, r, s', h, hI => by
      unfold syncAll at h
      rcases hsy : sync_container_status_with_runtime R S s c.id with ⟨rs, s1⟩
      simp only [hsy] at h
      have hI1 := Inv_sync R S s c.id rs s1 hsy hI
      cases rs with
      | error e =>
        simp only [Prod.mk.injEq] at h
        obtain ⟨-, h2⟩ := h
        subst h2
        exact hI1
      | ok u => exact Inv_syncAll R S t s1 r s' h hI1

/-- list_containers preserves the invariant, whatever its outcome. -/
lemma Inv_list (R : RuntimeEnv) (S : StoreEnv) (s : MState)
    (r : Except ContainerManagerError (List Container)) (s' : MState)
    (h : list_containers R S s = (r, s')) (hI : Inv s) : Inv s' := by
  unfold list_containers at h
  rcases hsa : syncAll R S (mapList s.reg) s with ⟨ra, s1⟩
  simp only [hsa] at h
  have hI1 := Inv_syncAll R S _ s ra s1 hsa hI
  cases ra <;> simp only [Prod.mk.injEq] at h <;>
    (obtain ⟨-, h2⟩ := h; subst h2; exact hI1)

/-- create_container preserves the invariant, whatever its outcome. -/
lemma Inv_create (R : RuntimeEnv) (S : StoreEnv) (opts : ContainerOptions)
    (gid : String) (now : SysTime) (s : MState)
    (r : Except ContainerManagerError String) (s' : MState)
    (h : create_container R S opts gid now s = (r, s')) (hI : Inv s) :
    Inv s' := by
  unfold create_container at h
  rcases hh : create_container_helper R S opts gid now s with ⟨rh, s9⟩
  rw [hh] at h
  obtain ⟨hframe, hok⟩ := helper_spec R S opts gid now s rh s9 hh
  cases rh with
  | ok cid0 =>
    simp only [Prod.mk.injEq] at h
    obtain ⟨-, h2⟩ := h
    subst h2
    obtain ⟨hcid0, c, hcid, hreg, hdisk⟩ := hok cid0 rfl
    constructor
    · intro cid c' hc
      by_cases hk : cid = gid
      · subst hk
        rw [hdisk]
        rfl
      · rw [(hframe cid hk).1] at hc
        have hx := hI.1 cid c' hc
        rw [(hframe cid hk).2]
        exact hx
    · intro cid d hd
      by_cases hk : cid = gid
      · subst hk
        rw [hdisk] at hd
        cases hd
        refine ⟨⟨encodeContainer c, c, rfl, decode_encode c⟩, ?_⟩
        rw [hreg]
        rfl
      · rw [(hframe cid hk).2] at hd
        obtain ⟨hp, hr2⟩ := hI.2 cid d hd
        refine ⟨hp, ?_⟩
        rw [(hframe cid hk).1]
        exact hr2
  | error p =>
    simp only [Prod.mk.injEq] at h
    obtain ⟨-, h2⟩ := h
    subst h2
    have hpid := helper_error_id R S opts gid now s p s9 hh
    rw [hpid]
    unfold rollback_container_create
    constructor
    · intro cid c hc
      simp only [mapRemove, lk_rmKey] at hc
      by_cases hk : gid = cid
      · simp [hk] at hc
      · rw [if_neg hk] at hc
        have hk' : cid ≠ gid := fun hx => hk hx.symm
        rw [(hframe cid hk').1] at hc
        have hx := hI.1 cid c hc
        simp only [remove_container_directory, lk_rmKey]
        rw [if_neg hk, (hframe cid hk').2]
        exact hx
    · intro cid d hd
      simp only [remove_container_directory, lk_rmKey] at hd
      by_cases hk : gid = cid
      · simp [hk] at hd
      · rw [if_neg hk] at hd
        have hk' : cid ≠ gid := fun hx => hk hx.symm
        rw [(hframe cid hk').2] at hd
        obtain ⟨hp2, hr2⟩ := hI.2 cid d hd
        refine ⟨hp2, ?_⟩
        simp only [mapRemove, lk_rmKey]
        rw [if_neg hk, (hframe cid hk').1]
        exact hr2

/-! Characterization of the runtime sync, used by the reload
analysis. -/

/-- Computation of a fully successful sync: status fetched, in-memory
status updated, new serialization committed to the state file. -/
lemma sync_ok_state (R : RuntimeEnv) (S : StoreEnv) (s : MState) (cid : String)
    (st : Status) (c : Container) (hgs : get_container_status R cid = .ok st)
    (hc : lk s.reg cid = some c) (hid : c.id = cid)
    (d0 : CDir) (hdp : lk s.disk cid = some d0)
    (hw : S.writeOk cid = true) (hrn : S.renameOk cid = true) :
    sync_container_status_with_runtime R S s cid =
      (.ok (), { reg := updKey s.reg cid (fun x => { x with status := st }),
                 disk := (updKey s.disk cid (fun d =>
                   { d with state := some (.ok (encodeContainer
                     { c with status := st })), temp := none })) }) := by
  have hck : containsKey s.reg cid = true := by simp [containsKey, hc]
  have hupd : update_container_statusM s cid st =
      .ok { s with reg := updKey s.reg cid (fun x => { x with status := st }) } := by
    unfold update_container_statusM mapUpdateStatus
    rw [if_pos hck]
  have hget2 : lk (updKey s.reg cid (fun x => { x with status := st })) cid =
      some { c with status := st } := by
    simp [lk_updKey, hc]
  have hid2 : ({ c with status := st } : Container).id = cid := hid
  unfold sync_container_status_with_runtime
  simp only [hgs, hupd]
  unfold atomic_persist_container_stateM
  simp only [mapGet, hget2]
  simp only [store_atomic_persist, hid, hdp, hw, hrn, if_true]

/-- A successful sync exposes the fetched status, the registry record,
and the success of the persist's write and rename. -/
lemma sync_ok_elim (R : RuntimeEnv) (S : StoreEnv) (s : MState) (cid : String)
    (u : Unit) (s2 : MState)
    (h : sync_container_status_with_runtime R S s cid = (.ok u, s2)) :
    ∃ st, get_container_status R cid = .ok st ∧
      ∃ c, lk s.reg cid = some c ∧ S.writeOk c.id = true ∧
        S.renameOk c.id = true := by
  unfold sync_container_status_with_runtime at h
  split at h
  · simp at h
  · rename_i st hst
    split at h
    · simp at h
    · rename_i s1 hupd
      have hs1 := updStM_ok_elim s cid st s1 hupd
      subst hs1
      obtain ⟨c', hc', hd', hw', hr', hs2⟩ := persistM_ok_elim S _ cid u s2 h
      have hc'' : lk (updKey s.reg cid (fun x => { x with status := st })) cid =
          some c' := hc'
      rcases hm : lk s.reg cid with _ | c
      · simp [lk_updKey, hm] at hc''
      · simp [lk_updKey, hm] at hc''
        subst hc''
        exact ⟨st, hst, c, rfl, hw', hr'⟩

/-- A sync only touches the entries of its id, whatever its outcome,
provided the registry record of the id carries that id. -/
lemma sync_state_frame (R : RuntimeEnv) (S : StoreEnv) (s : MState)
    (cid : String) (r : Except ContainerManagerError Unit) (s2 : MState)
    (h : sync_container_status_with_runtime R S s cid = (r, s2))
    (c : Container) (hc : lk s.reg cid = some c) (hid : c.id = cid) :
    ∀ cid', cid' ≠ cid →
      lk s2.reg cid' = lk s.reg cid' ∧ lk s2.disk cid' = lk s.disk cid' := by
  unfold sync_container_status_with_runtime at h
  split at h
  · simp only [Prod.mk.injEq] at h
    obtain ⟨-, h2⟩ := h
    subst h2
    exact fun _ _ => ⟨rfl, rfl⟩
  · rename_i st hst
    split at h
    · simp only [Prod.mk.injEq] at h
      obtain ⟨-, h2⟩ := h
      subst h2
      exact fun _ _ => ⟨rfl, rfl⟩
    · rename_i s1 hupd
      have hs1 := updStM_ok_elim s cid st s1 hupd
      subst hs1
      have hc1 : lk ({ s with
          reg := updKey s.reg cid (fun x => { x with status := st }) }).reg cid =
          some { c with status := st } := by
        simp [lk_updKey, hc]
      have hid1 : ({ c with status := st } : Container).id = cid := hid
      obtain ⟨hpreg, hpdisk⟩ := persistM_state S _ cid _ hc1 hid1 r s2 h
      intro cid' hne
      have hne' : ¬cid = cid' := fun hx => hne hx.symm
      constructor
      · rw [hpreg]
        have hx : lk (updKey s.reg cid (fun x => { x with status := st })) cid' =
            lk s.reg cid' := by
          simp [lk_updKey, hne']
        exact hx
      · exact hpdisk cid' hne

/-- Characterization of one reload iteration over a well-formed
starting disk: entries of other ids are untouched; an id whose read,
status lookup and persist all succeed survives in both the registry and
the disk with a freshly committed state file; any failing id is removed
from both. -/
lemma reload_step_spec (R : RuntimeEnv) (S : StoreEnv) (disk0 : Disk)
    (hwf : wfDisk disk0) (s : MState) (cid : String)
    (hd : lk s.disk cid = lk disk0 cid) (hr : lk s.reg cid = none) :
    (∀ cid', cid' ≠ cid →
      lk (reload_step R S s cid).reg cid' = lk s.reg cid' ∧
      lk (reload_step R S s cid).disk cid' = lk s.disk cid') ∧
    (reloadGood R S disk0 cid = true →
      (∃ c, lk (reload_step R S s cid).reg cid = some c) ∧
      (∃ d, lk (reload_step R S s cid).disk cid = some d ∧
        ∃ j c, d.state = some (.ok j) ∧ decodeContainer j = some c ∧
          c.id = cid)) ∧
    (reloadGood R S disk0 cid = false →
      lk (reload_step R S s cid).reg cid = none ∧
      lk (reload_step R S s cid).disk cid = none) := by
  have hreadc : store_read_container_state S s.disk cid =
      store_read_container_state S disk0 cid := read_congr S _ _ cid hd
  unfold reload_step
  rcases hread : store_read_container_state S s.disk cid with e | c
  · have hgood : reloadGood R S disk0 cid = false := by
      unfold reloadGood
      rw [← hreadc, hread]
      simp [exIsOk]
    refine ⟨?_, ?_, ?_⟩
    · intro cid' hne
      have hne' : ¬cid = cid' := fun hx => hne hx.symm
      refine ⟨rfl, ?_⟩
      show lk (remove_container_directory s.disk cid) cid' = _
      simp [remove_container_directory, lk_rmKey, hne']
    · intro hg
      rw [hgood] at hg
      cases hg
    · intro _
      refine ⟨hr, ?_⟩
      show lk (remove_container_directory s.disk cid) cid = none
      simp [remove_container_directory, lk_rmKey]
  · obtain ⟨d0, j0, hlk0, hro, hst0, hdec0⟩ := read_ok_elim S s.disk cid c hread
    rw [hd] at hlk0
    have hcid : c.id = cid := wf_apply disk0 cid d0 j0 c hwf hlk0 hst0 hdec0
    have hck : containsKey s.reg c.id = false := by
      rw [hcid]
      simp [containsKey, hr]
    have haddeq : mapAdd s.reg c = .ok (c.id, (c.id, c) :: s.reg) := by
      unfold mapAdd
      rw [if_neg (by simp [hck])]
    simp only [haddeq]
    rcases hsy : sync_container_status_with_runtime R S
        { s with reg := (c.id, c) :: s.reg } cid with ⟨rs, s2⟩
    have hc1 : lk ({ s with reg := (c.id, c) :: s.reg }).reg cid = some c := by
      simp [lk_cons, hcid]
    have hframe_sync := sync_state_frame R S _ cid rs s2 hsy c hc1 hcid
    have hdp : lk ({ s with reg := (c.id, c) :: s.reg }).disk cid = some d0 := by
      show lk s.disk cid = some d0
      rw [hd]
      exact hlk0
    cases rs with
    | error e2 =>
      have hgood : reloadGood R S disk0 cid = false := by
        rcases hgs : get_container_status R cid with eg | st
        · unfold reloadGood
          rw [← hreadc, hread, hgs]
          simp [exIsOk]
        · by_cases hw : S.writeOk cid = true
          · by_cases hrn : S.renameOk cid = true
            · exfalso
              have heq := sync_ok_state R S { s with reg := (c.id, c) :: s.reg }
                cid st c hgs hc1 hcid d0 hdp hw hrn
              rw [heq] at hsy
              simp at hsy
            · unfold reloadGood
              rw [← hreadc, hread, hgs]
              simp [exIsOk, hrn]
          · unfold reloadGood
            rw [← hreadc, hread, hgs]
            simp [exIsOk, hw]
      refine ⟨?_, ?_, ?_⟩
      · intro cid' hne
        have hne' : ¬cid = cid' := fun hx => hne hx.symm
        obtain ⟨hfr, hfd⟩ := hframe_sync cid' hne
        constructor
        · show lk (mapRemove s2.reg cid) cid' = _
          simp only [mapRemove, lk_rmKey, if_neg hne']
          rw [hfr]
          show lk ((c.id, c) :: s.reg) cid' = _
          have hne2 : ¬c.id = cid' := by
            rw [hcid]
            exact hne'
          simp [lk_cons, hne2]
        · show lk (remove_container_directory s2.disk cid) cid' = _
          simp only [remove_container_directory, lk_rmKey, if_neg hne']
          rw [hfd]
      · intro hg
        rw [hgood] at hg
        cases hg
      · intro _
        constructor
        · show lk (mapRemove s2.reg cid) cid = none
          simp [mapRemove, lk_rmKey]
        · show lk (remove_container_directory s2.disk cid) cid = none
          simp [remove_container_directory, lk_rmKey]
    | ok u =>
      obtain ⟨st, hgs, c1, hc1', hw1, hr1⟩ := sync_ok_elim R S _ cid u s2 hsy
      rw [hc1] at hc1'
      cases hc1'
      rw [hcid] at hw1 hr1
      have heq := sync_ok_state R S { s with reg := (c.id, c) :: s.reg }
        cid st c hgs hc1 hcid d0 hdp hw1 hr1
      rw [heq] at hsy
      simp only [Prod.mk.injEq] at hsy
      obtain ⟨-, hs2⟩ := hsy
      have hgood : reloadGood R S disk0 cid = true := by
        unfold reloadGood
        rw [← hreadc, hread, hgs]
        simp [exIsOk, hw1, hr1]
      refine ⟨?_, ?_, ?_⟩
      · intro cid' hne
        have hne' : ¬cid = cid' := fun hx => hne hx.symm
        have hne2 : ¬c.id = cid' := by
          rw [hcid]
          exact hne'
        constructor
        · show lk s2.reg cid' = lk s.reg cid'
          rw [← hs2]
          simp [lk_updKey, lk_cons, hne', hne2]
        · show lk s2.disk cid' = lk s.disk cid'
          rw [← hs2]
          simp [lk_updKey, hne']
      · intro _
        constructor
        · refine ⟨{ c with status := st }, ?_⟩
          show lk s2.reg cid = some { c with status := st }
          rw [← hs2]
          simp [lk_updKey, lk_cons, hcid]
        · refine ⟨{ d0 with state := some (.ok (encodeContainer
            { c with status := st })), temp := none }, ?_, ?_⟩
          · show lk s2.disk cid = some { d0 with state := some (.ok
              (encodeContainer { c with status := st })), temp := none }
            rw [← hs2]
            have hdx : lk s.disk cid = some d0 := by
              rw [hd]
              exact hlk0
            simp [lk_updKey, hdx]
          · exact ⟨encodeContainer { c with status := st },
              { c with status := st }, rfl, decode_encode _, hcid⟩
      · intro hg
        rw [hgood] at hg
        cases hg

lemma reload_list_cons (R : RuntimeEnv) (S : StoreEnv) (x : String)
    (t : List String) (s : MState) :
    reload_list R S (x :: t) s = reload_list R S t (reload_step R S s x) := rfl

/-- Characterization of the whole reload loop over a well-formed
starting disk with distinct ids: surviving ids are exactly those whose
read, status lookup and persist succeed; all other enumerated ids are
removed from both the registry and the disk; unprocessed ids are
untouched. -/
lemma reload_list_spec (R : RuntimeEnv) (S : StoreEnv) (disk0 : Disk)
    (hwf : wfDisk disk0) :
    ∀ (ids : List String) (s : MState),
      ids.Nodup →
      (∀ cid ∈ ids, lk s.disk cid = lk disk0 cid) →
      (∀ cid ∈ ids, lk s.reg cid = none) →
      ∀ cid,
        (cid ∈ ids →
          (reloadGood R S disk0 cid = true →
            (∃ c, lk (reload_list R S ids s).reg cid = some c) ∧
            (∃ d, lk (reload_list R S ids s).disk cid = some d ∧
              ∃ j c, d.state = some (.ok j) ∧ decodeContainer j = some c ∧
                c.id = cid)) ∧
          (reloadGood R S disk0 cid = false →
            lk (reload_list R S ids s).reg cid = none ∧
            lk (reload_list R S ids s).disk cid = none)) ∧
        (cid ∉ ids →
          lk (reload_list R S ids s).reg cid = lk s.reg cid ∧
          lk (reload_list R S ids s).disk cid = lk s.disk cid)
  | [], s, _, _, _, cid => by
      exact ⟨fun hmem => absurd hmem (List.not_mem_nil _), fun _ => ⟨rfl, rfl⟩⟩
  | id0 :: rest, s, hnd, hdisk, hreg, cid => by
      rw [List.nodup_cons] at hnd
      obtain ⟨hid0nr, hndr⟩ := hnd
      obtain ⟨hstepfr, hstepgood, hstepbad⟩ :=
        reload_step_spec R S disk0 hwf s id0 (hdisk id0 (by simp))
          (hreg id0 (by simp))
      have hdisk' : ∀ c2 ∈ rest,
          lk (reload_step R S s id0).disk c2 = lk disk0 c2 := by
        intro c2 hc2
        have hne : c2 ≠ id0 := fun hx => hid0nr (hx ▸ hc2)
        rw [(hstepfr c2 hne).2]
        exact hdisk c2 (by simp [hc2])
      have hreg' : ∀ c2 ∈ rest, lk (reload_step R S s id0).reg c2 = none := by
        intro c2 hc2
        have hne : c2 ≠ id0 := fun hx => hid0nr (hx ▸ hc2)
        rw [(hstepfr c2 hne).1]
        exact hreg c2 (by simp [hc2])
      have ih := reload_list_spec R S disk0 hwf rest (reload_step R S s id0)
        hndr hdisk' hreg'
      constructor
      · intro hmem
        rcases List.mem_cons.mp hmem with heq | hmemr
        · subst heq
          have hnotin : cid ∉ rest := hid0nr
          obtain ⟨hfr1, hfr2⟩ := (ih cid).2 hnotin
          constructor
          · intro hg
            obtain ⟨⟨c, hcreg⟩, ⟨d, hddisk, hdx⟩⟩ := hstepgood hg
            refine ⟨⟨c, ?_⟩, ⟨d, ?_, hdx⟩⟩
            · rw [reload_list_cons, hfr1]
              exact hcreg
            · rw [reload_list_cons, hfr2]
              exact hddisk
          · intro hg
            obtain ⟨h1, h2⟩ := hstepbad hg
            exact ⟨by rw [reload_list_cons, hfr1]; exact h1,
                   by rw [reload_list_cons, hfr2]; exact h2⟩
        · rw [reload_list_cons]
          exact (ih cid).1 hmemr
      · intro hnm
        have hne : cid ≠ id0 := fun hx => hnm (by simp [hx])
        have hnr : cid ∉ rest := fun hx => hnm (by simp [hx])
        obtain ⟨hf1, hf2⟩ := (ih cid).2 hnr
        obtain ⟨hg1, hg2⟩ := hstepfr cid hne
        constructor
        · rw [reload_list_cons, hf1, hg1]
        · rw [reload_list_cons, hf2, hg2]

/-- Invariant of the concrete two-container state sAB. -/
lemma Inv_sAB : Inv sAB := by
  constructor
  · intro cid c hc
    by_cases ha : "a" = cid
    · subst ha
      rfl
    · by_cases hb : "b" = cid
      · subst hb
        rfl
      · simp [sAB, lk, ha, hb] at hc
  · intro cid d hd
    by_cases ha : "a" = cid
    · subst ha
      have hx : lk sAB.disk "a" = some (dirOf createdC) := rfl
      rw [hx] at hd
      cases hd
      exact ⟨⟨encodeContainer createdC, createdC, rfl, decode_encode _⟩, rfl⟩
    · by_cases hb : "b" = cid
      · subst hb
        have hx : lk sAB.disk "b" = some (dirOf runningC) := rfl
        rw [hx] at hd
        cases hd
        exact ⟨⟨encodeContainer runningC, runningC, rfl, decode_encode _⟩, rfl⟩
      · simp [sAB, lk, ha, hb] at hd

/-- C7: the translation from runtime status strings to the internal
status enum is total and matches the spec table exactly: created maps to
Created, running to Running, pausing to Running, paused to Paused,
stopped to Stopped, and every other string to Unknown, never an
error. -/
theorem status_translation_matches_table :
    Status.from_runc_status ⟨"created"⟩ = .Created ∧
    Status.from_runc_status ⟨"running"⟩ = .Running ∧
    Status.from_runc_status ⟨"pausing"⟩ = .Running ∧
    Status.from_runc_status ⟨"paused"⟩ = .Paused ∧
    Status.from_runc_status ⟨"stopped"⟩ = .Stopped ∧
    ∀ s : String, s ≠ "created" → s ≠ "running" → s ≠ "pausing" →
      s ≠ "paused" → s ≠ "stopped" → Status.from_runc_status ⟨s⟩ = .Unknown := by
  refine ⟨rfl, rfl, rfl, rfl, rfl, ?_⟩
  intro s h1 h2 h3 h4 h5
  simp [Status.from_runc_status, h1, h2, h3, h4, h5]

/-- Witness for C7 at the concrete unrecognized string zzz. -/
theorem status_translation_matches_table_witness :
    Status.from_runc_status ⟨"created"⟩ = .Created ∧
    Status.from_runc_status ⟨"zzz"⟩ = .Unknown :=
  ⟨status_translation_matches_table.1,
   status_translation_matches_table.2.2.2.2.2 "zzz" (by decide) (by decide)
     (by decide) (by decide) (by decide)⟩

/-- C5: atomic_persist_container_state serializes the record, writes the
bytes to container.state.temp, then renames the temp file onto
container.state as the single commit point; at every crash point the
state file holds either the prior contents or the whole new serialized
record, never a partial write, and a completed run through the store
operation commits exactly the rename effect. -/
theorem atomic_persist_crash_atomicity :
    ∀ (c : Container) (d : CDir),
      (persistAtCrash .beforeWrite c d).state = d.state ∧
      (persistAtCrash .midWrite c d).state = d.state ∧
      (persistAtCrash .afterWrite c d).state = d.state ∧
      (persistAtCrash .afterRename c d).state = some (.ok (encodeContainer c)) ∧
      (∀ cp : CrashPoint,
        (persistAtCrash cp c d).state = d.state ∨
        (persistAtCrash cp c d).state = some (.ok (encodeContainer c))) ∧
      ∀ (S : StoreEnv) (disk : Disk),
        S.writeOk c.id = true → S.renameOk c.id = true →
        (lk disk c.id).isSome = true →
        store_atomic_persist S disk c =
          (.ok (), updKey disk c.id (fun d0 => persistAtCrash .afterRename c d0)) := by
  intro c d
  refine ⟨rfl, rfl, rfl, rfl, ?_, ?_⟩
  · intro cp
    cases cp
    · exact Or.inl rfl
    · exact Or.inl rfl
    · exact Or.inl rfl
    · exact Or.inr rfl
  · intro S disk hw hr hd
    cases hlk : lk disk c.id with
    | none => rw [hlk] at hd; simp at hd
    | some d1 =>
      simp [store_atomic_persist, hlk, hw, hr, persistAtCrash]

/-- Witness for C5: a completed persist over a concrete one-directory
disk commits the rename effect. -/
theorem atomic_persist_crash_atomicity_witness :
    store_atomic_persist allOkStore [("a", dirOf pausedC)] createdC =
      (.ok (), updKey [("a", dirOf pausedC)] createdC.id
        (fun d0 => persistAtCrash .afterRename createdC d0)) :=
  (atomic_persist_crash_atomicity createdC (dirOf pausedC)).2.2.2.2.2
    allOkStore [("a", dirOf pausedC)] rfl rfl rfl

/-- C9: persisting any container record through
atomic_persist_container_state and reading it back through
read_container_state returns a record equal to the original in all
fields, for every combination of set and absent optional timestamps; in
particular decoding the encoded JSON restores the record. -/
theorem container_state_roundtrip :
    ∀ (S : StoreEnv) (disk : Disk) (c : Container),
      S.writeOk c.id = true → S.renameOk c.id = true → S.readOk c.id = true →
      (lk disk c.id).isSome = true →
      store_read_container_state S (store_atomic_persist S disk c).2 c.id = .ok c ∧
      decodeContainer (encodeContainer c) = some c := by
  intro S disk c hw hr hrd hd
  constructor
  · cases hlk : lk disk c.id with
    | none => rw [hlk] at hd; simp at hd
    | some d1 =>
      simp [store_atomic_persist, hlk, hw, hr, store_read_container_state,
        lk_updKey, hrd, decode_encode]
  · exact decode_encode c

/-- Witness for C9 at a concrete record with one timestamp set and one
absent. -/
theorem container_state_roundtrip_witness :
    store_read_container_state allOkStore
      (store_atomic_persist allOkStore [("a", dirOf pausedC)] createdC).2 "a" =
      .ok createdC ∧
    decodeContainer (encodeContainer createdC) = some createdC :=
  container_state_roundtrip allOkStore [("a", dirOf pausedC)] createdC
    rfl rfl rfl rfl

/-- C1: for a container present in the registry, start with status other
than Created, stop with status other than Running, and delete with
status outside Created and Stopped each return their precondition error
and leave the whole manager state, registry and disk, unchanged. -/
theorem precondition_errors_leave_state_unchanged :
    ∀ (R : RuntimeEnv) (S : StoreEnv) (s : MState) (cid : String)
      (c : Container) (now : SysTime),
      lk s.reg cid = some c →
      (c.status ≠ .Created →
        start_container R S s cid now =
          (.error (.StartContainerNotInCreatedStateError cid), s)) ∧
      (c.status ≠ .Running →
        stop_container R S s cid =
          (.error (.StopContainerNotInRunningStateError cid), s)) ∧
      (c.status ≠ .Stopped → c.status ≠ .Created →
        delete_container R s cid =
          (.error (.DeleteContainerNotInDeleteableStateError cid), s)) := by
  intro R S s cid c now h
  refine ⟨?_, ?_, ?_⟩
  · intro hst
    simp [start_container, mapGet, h, hst]
  · intro hst
    simp [stop_container, mapGet, h, hst]
  · intro h1 h2
    simp [delete_container, mapGet, h, h1, h2]

/-- Witness for C1: a Paused container rejects all three operations with
the state unchanged. -/
theorem precondition_errors_leave_state_unchanged_witness :
    start_container allOkRuntime allOkStore sPaused "a" t0 =
      (.error (.StartContainerNotInCreatedStateError "a"), sPaused) ∧
    stop_container allOkRuntime allOkStore sPaused "a" =
      (.error (.StopContainerNotInRunningStateError "a"), sPaused) ∧
    delete_container allOkRuntime sPaused "a" =
      (.error (.DeleteContainerNotInDeleteableStateError "a"), sPaused) := by
  have h := precondition_errors_leave_state_unchanged allOkRuntime allOkStore
    sPaused "a" pausedC t0 rfl
  exact ⟨h.1 (by decide), h.2.1 (by decide), h.2.2 (by decide) (by decide)⟩

/-- C10: when the status precondition holds but the runtime spawn fails,
start_container and stop_container return the wrapped runtime error and
leave the manager state, registry record and persisted file included,
exactly as before, because the runtime call precedes every mutation. -/
theorem runtime_failure_before_mutation :
    ∀ (R : RuntimeEnv) (S : StoreEnv),
      (∀ (s : MState) (cid : String) (c : Container) (now : SysTime) (e : IoError),
        lk s.reg cid = some c → c.status = .Created →
        R.startSpawn cid = .error e →
        start_container R S s cid now =
          (.error (.ContainerRuntimeError (.RuncError .Start cid e)), s)) ∧
      (∀ (s : MState) (cid : String) (c : Container) (e : IoError),
        lk s.reg cid = some c → c.status = .Running →
        R.killSpawn cid = .error e →
        stop_container R S s cid =
          (.error (.ContainerRuntimeError (.RuncError .Kill cid e)), s)) := by
  intro R S
  constructor
  · intro s cid c now e h hst hsp
    simp [start_container, mapGet, h, hst, runtime_start_container, hsp,
      fromRuntimeError]
  · intro s cid c e h hst hsp
    simp [stop_container, mapGet, h, hst, runtime_kill_container, hsp,
      fromRuntimeError]

/-- Witness for C10: concrete failing start and kill spawns on a state
with a Created container a and a Running container b. -/
theorem runtime_failure_before_mutation_witness :
    start_container startKillErrRuntime allOkStore sAB "a" t0 =
      (.error (.ContainerRuntimeError (.RuncError .Start "a" 3)), sAB) ∧
    stop_container startKillErrRuntime allOkStore sAB "b" =
      (.error (.ContainerRuntimeError (.RuncError .Kill "b" 4)), sAB) := by
  have h := runtime_failure_before_mutation startKillErrRuntime allOkStore
  exact ⟨h.1 sAB "a" createdC t0 3 rfl rfl rfl,
         h.2 sAB "b" runningC 4 rfl rfl rfl⟩

/-- C2 counterexample: for the Stopped container a, a failing runtime
delete invocation makes delete_container return the error with nothing
removed, contradicting the claim that such an error is swallowed and the
delete still succeeds and removes the container. -/
theorem delete_error_propagates_cex :
    delete_container deleteErrRuntime sStopped "a" =
      (.error (.ContainerRuntimeError (.RuncError .Delete "a" 7)), sStopped) ∧
    lk sStopped.reg "a" = some stoppedC ∧
    (lk sStopped.disk "a").isSome = true := by
  exact ⟨rfl, rfl, rfl⟩

/-- C2 amended: for a container in Created or Stopped status,
delete_container invokes the runtime delete; when that invocation
returns an error (a spawn failure) the error propagates and nothing is
removed, and when the spawn succeeds, whatever the child's exit status,
the container is removed from the registry and its directory from disk
and the call succeeds. -/
theorem delete_container_outcomes :
    ∀ (R : RuntimeEnv) (s : MState) (cid : String) (c : Container),
      lk s.reg cid = some c →
      (c.status = .Created ∨ c.status = .Stopped) →
      (∀ e : IoError, R.deleteSpawn cid = .error e →
        delete_container R s cid =
          (.error (.ContainerRuntimeError (.RuncError .Delete cid e)), s)) ∧
      (∀ code : Int, R.deleteSpawn cid = .ok code →
        delete_container R s cid =
          (.ok (), { reg := mapRemove s.reg cid,
                     disk := remove_container_directory s.disk cid })) := by
  intro R s cid c h hst
  have hcond : ¬(c.status ≠ Status.Stopped ∧ c.status ≠ Status.Created) := by
    rcases hst with h1 | h1 <;> simp [h1]
  constructor
  · intro e hsp
    simp [delete_container, mapGet, h, hcond, runtime_delete_container, hsp,
      fromRuntimeError]
  · intro code hsp
    simp [delete_container, mapGet, h, hcond, runtime_delete_container, hsp]

/-- Witness for the amended C2 on concrete failing and succeeding delete
spawns over the Stopped container a. -/
theorem delete_container_outcomes_witness :
    delete_container deleteErrRuntime sStopped "a" =
      (.error (.ContainerRuntimeError (.RuncError .Delete "a" 7)), sStopped) ∧
    delete_container allOkRuntime sStopped "a" =
      (.ok (), { reg := mapRemove sStopped.reg "a",
                 disk := remove_container_directory sStopped.disk "a" }) :=
  ⟨(delete_container_outcomes deleteErrRuntime sStopped "a" stoppedC rfl
      (Or.inr rfl)).1 7 rfl,
   (delete_container_outcomes allOkRuntime sStopped "a" stoppedC rfl
      (Or.inr rfl)).2 0 rfl⟩

/-- C6: evaluation showing the divergence: with the runc spec child
exiting with status 1 (spawn succeeding), create_container from the
empty state does not return the Spec runtime-invocation error; it
ignores the exit status, succeeds, and registers the container. -/
theorem create_ignores_spec_exit_status :
    specExit1Runtime.specSpawn = .ok 1 ∧
    (create_container specExit1Runtime allOkStore opts1 "id0" t0 ⟨[], []⟩).1 =
      .ok "id0" ∧
    lk (create_container specExit1Runtime allOkStore opts1 "id0" t0 ⟨[], []⟩).2.reg
      "id0" =
      some { id := "id0", name := "c1", status := .Created, exit_code := -1,
             created_at := some t0, started_at := none,
             command := "/bin/echo", args := ["hi"] } ∧
    (lk (create_container specExit1Runtime allOkStore opts1 "id0" t0
      ⟨[], []⟩).2.disk "id0").isSome = true := by
  exact ⟨rfl, rfl, rfl, rfl⟩

/-- C3: every failing create_container returns the helper's original
error unchanged, and afterwards neither the registry nor the on-disk
containers directory holds an entry for the attempted id; the rollback
is idempotent on the resulting state, whatever partial progress the
failure left. -/
theorem create_rollback_completeness :
    ∀ (R : RuntimeEnv) (S : StoreEnv) (opts : ContainerOptions)
      (gen_id : String) (now : SysTime) (s : MState)
      (e : ContainerManagerError) (s' : MState),
      create_container R S opts gen_id now s = (.error e, s') →
      lk s'.reg gen_id = none ∧
      lk s'.disk gen_id = none ∧
      rollback_container_create gen_id s' = s' ∧
      ∃ s1, create_container_helper R S opts gen_id now s = (.error ⟨gen_id, e⟩, s1) ∧
            s' = rollback_container_create gen_id s1 := by
  intro R S opts gen_id now s e s' h
  unfold create_container at h
  rcases hh : create_container_helper R S opts gen_id now s with ⟨r, s1⟩
  rw [hh] at h
  cases r with
  | ok cid => simp at h
  | error p =>
    have hid := helper_error_id R S opts gen_id now s p s1 hh
    simp only [Prod.mk.injEq, Except.error.injEq] at h
    obtain ⟨he, hs⟩ := h
    obtain ⟨pid, psrc⟩ := p
    simp only at hid he
    subst hid
    subst he
    subst hs
    refine ⟨?_, ?_, ?_, s1, rfl, rfl⟩
    · simp [rollback_container_create, mapRemove]
    · simp [rollback_container_create, remove_container_directory]
    · simp [rollback_container_create, mapRemove, remove_container_directory,
        rmKey_idem]

/-- Witness for C3: a create that fails at the registry insert (the id
is already present) returns the original error and leaves no trace of
the id. -/
theorem create_rollback_completeness_witness :
    create_container allOkRuntime allOkStore opts1 "a" t0 sStopped =
      (.error (.ContainerMapError (.ContainerAlreadyExistsError "a")),
        (⟨[], []⟩ : MState)) ∧
    lk (⟨[], []⟩ : MState).reg "a" = none ∧
    lk (⟨[], []⟩ : MState).disk "a" = none ∧
    rollback_container_create "a" ⟨[], []⟩ = ⟨[], []⟩ := by
  have h := create_rollback_completeness allOkRuntime allOkStore opts1 "a" t0
    sStopped (.ContainerMapError (.ContainerAlreadyExistsError "a")) ⟨[], []⟩ rfl
  exact ⟨rfl, h.1, h.2.1, h.2.2.1⟩

/-- C4 counterexample: over a disk holding the single well-formed
container a, with a store whose temp-file writes fail, the state file of
a reads and parses and the runtime status lookup succeeds, yet
ContainerManager::new completes with an empty registry: a is removed
because the persist of its synced status failed, so the registry is not
the set of ids passing exactly the read/parse and status-lookup steps. -/
theorem reload_drops_container_on_persist_failure_cex :
    store_read_container_state writeFailStore goodDisk "a" = .ok stoppedC ∧
    get_container_status allOkRuntime "a" = .ok .Running ∧
    container_manager_new allOkRuntime writeFailStore goodDisk =
      .ok ⟨[], []⟩ ∧
    lk ([] : Registry) "a" = none := by
  exact ⟨rfl, rfl, rfl, rfl⟩

/-- C4 (amended): over a disk with distinct directory names whose
parseable state files record their own directory id, and whose
containers/ enumeration succeeds, ContainerManager::new always completes
successfully, and the resulting registry (and disk) contains exactly
those enumerated ids whose state file reads and parses, whose runtime
status lookup succeeds, AND whose persist of the synced status (temp
write and rename) succeeds; every other enumerated id ends with no
registry entry and no on-disk directory. -/
theorem reload_registry_characterization (R : RuntimeEnv) (S : StoreEnv)
    (disk0 : Disk) (hlist : S.listOk = true)
    (hnd : (disk0.map Prod.fst).Nodup) (hwf : wfDisk disk0) :
    ∃ s', container_manager_new R S disk0 = .ok s' ∧
      ∀ cid,
        ((lk s'.reg cid).isSome = true ↔
          (cid ∈ disk0.map Prod.fst ∧ reloadGood R S disk0 cid = true)) ∧
        ((lk s'.disk cid).isSome = true ↔
          (cid ∈ disk0.map Prod.fst ∧ reloadGood R S disk0 cid = true)) := by
  refine ⟨reload_list R S (disk0.map Prod.fst) ⟨[], disk0⟩, ?_, ?_⟩
  · have hl : store_list_container_ids S disk0 = .ok (disk0.map Prod.fst) := by
      simp [store_list_container_ids, hlist]
    simp only [container_manager_new, reload, hl]
  · intro cid
    have hspec := reload_list_spec R S disk0 hwf (disk0.map Prod.fst)
      ⟨[], disk0⟩ hnd (fun c2 _ => rfl) (fun c2 _ => rfl) cid
    by_cases hmem : cid ∈ disk0.map Prod.fst
    · obtain ⟨hgoodc, hbadc⟩ := hspec.1 hmem
      cases hgb : reloadGood R S disk0 cid
      · obtain ⟨h1, h2⟩ := hbadc hgb
        constructor
        · rw [h1]
          simp [hgb]
        · rw [h2]
          simp [hgb]
      · obtain ⟨⟨c, hc⟩, ⟨d, hdd, -⟩⟩ := hgoodc hgb
        constructor
        · rw [hc]
          simp [hmem, hgb]
        · rw [hdd]
          simp [hmem, hgb]
    · obtain ⟨h1, h2⟩ := hspec.2 hmem
      have hnone : lk disk0 cid = none := (lk_none_iff_keys disk0 cid).mpr hmem
      constructor
      · rw [h1]
        simp [lk_nil, hmem]
      · rw [h2]
        have h2' : lk ((⟨[], disk0⟩ : MState)).disk cid = none := hnone
        rw [h2']
        simp [hmem]

/-- Witness for C4 (amended): the characterization instantiated on the
disk holding the single well-formed container a with the all-success
store and runtime oracles. -/
theorem reload_registry_characterization_witness :
    ∃ s', container_manager_new allOkRuntime allOkStore goodDisk = .ok s' ∧
      ∀ cid,
        ((lk s'.reg cid).isSome = true ↔
          (cid ∈ goodDisk.map Prod.fst ∧
            reloadGood allOkRuntime allOkStore goodDisk cid = true)) ∧
        ((lk s'.disk cid).isSome = true ↔
          (cid ∈ goodDisk.map Prod.fst ∧
            reloadGood allOkRuntime allOkStore goodDisk cid = true)) :=
  reload_registry_characterization allOkRuntime allOkStore goodDisk rfl
    (by decide) (show ∀ p ∈ goodDisk, wfEntry p = true by decide)

/-- C8 counterexample: over a disk whose single directory b2dir holds
the parseable state file of a container recorded under id b,
ContainerManager::new completes and leaves a state in which the registry
holds b (reload registered the record under its recorded id) while no
on-disk directory remains (the sync of b2dir failed its registry lookup
and removed the directory), so right after a manager operation boundary
a registry record has no corresponding on-disk directory and the
cross-component invariant is violated. -/
theorem reload_mismatched_id_breaks_invariant_cex :
    container_manager_new allOkRuntime allOkStore mismatchDisk =
      .ok ⟨[("b", runningC)], []⟩ ∧
    lk ([("b", runningC)] : Registry) "b" = some runningC ∧
    lk ([] : Disk) "b" = none ∧
    ¬ Inv ⟨[("b", runningC)], []⟩ := by
  refine ⟨rfl, rfl, rfl, ?_⟩
  intro h
  have hx := h.1 "b" runningC rfl
  simp [lk] at hx

/-- C8 (amended): the cross-component invariant — every registry record
has an on-disk directory, and every on-disk directory holds a parseable
state file and has a registry entry under its directory id — is
preserved by every lifecycle operation (create, start, stop, delete,
get, list, and the status sync), whatever its outcome; and it is
established by ContainerManager::new provided the starting disk has
distinct directory names each of whose parseable state files records its
own directory id. -/
theorem invariant_preservation :
    (∀ (R : RuntimeEnv) (S : StoreEnv) (opts : ContainerOptions)
      (gid : String) (now : SysTime) (s : MState), Inv s →
      Inv (create_container R S opts gid now s).2) ∧
    (∀ (R : RuntimeEnv) (S : StoreEnv) (s : MState) (cid : String)
      (now : SysTime), Inv s → Inv (start_container R S s cid now).2) ∧
    (∀ (R : RuntimeEnv) (S : StoreEnv) (s : MState) (cid : String),
      Inv s → Inv (stop_container R S s cid).2) ∧
    (∀ (R : RuntimeEnv) (s : MState) (cid : String),
      Inv s → Inv (delete_container R s cid).2) ∧
    (∀ (R : RuntimeEnv) (S : StoreEnv) (s : MState) (cid : String),
      Inv s → Inv (get_container R S s cid).2) ∧
    (∀ (R : RuntimeEnv) (S : StoreEnv) (s : MState),
      Inv s → Inv (list_containers R S s).2) ∧
    (∀ (R : RuntimeEnv) (S : StoreEnv) (s : MState) (cid : String),
      Inv s → Inv (sync_container_status_with_runtime R S s cid).2) ∧
    (∀ (R : RuntimeEnv) (S : StoreEnv) (disk0 : Disk) (s' : MState),
      S.listOk = true → (disk0.map Prod.fst).Nodup → wfDisk disk0 →
      container_manager_new R S disk0 = .ok s' → Inv s') := by
  refine ⟨?_, ?_, ?_, ?_, ?_, ?_, ?_, ?_⟩
  · intro R S opts gid now s hI
    exact Inv_create R S opts gid now s _ _ rfl hI
  · intro R S s cid now hI
    exact Inv_start R S s cid now _ _ rfl hI
  · intro R S s cid hI
    exact Inv_stop R S s cid _ _ rfl hI
  · intro R s cid hI
    exact Inv_delete R s cid _ _ rfl hI
  · intro R S s cid hI
    exact Inv_get R S s cid _ _ rfl hI
  · intro R S s hI
    exact Inv_list R S s _ _ rfl hI
  · intro R S s cid hI
    exact Inv_sync R S s cid _ _ rfl hI
  · intro R S disk0 s' hlist hnd hwf hnew
    have hl : store_list_container_ids S disk0 = .ok (disk0.map Prod.fst) := by
      simp [store_list_container_ids, hlist]
    simp only [container_manager_new, reload, hl, Except.ok.injEq] at hnew
    subst hnew
    constructor
    · intro cid c hc
      have hspec := reload_list_spec R S disk0 hwf (disk0.map Prod.fst)
        ⟨[], disk0⟩ hnd (fun c2 _ => rfl) (fun c2 _ => rfl) cid
      by_cases hmem : cid ∈ disk0.map Prod.fst
      · obtain ⟨hgoodc, hbadc⟩ := hspec.1 hmem
        cases hgb : reloadGood R S disk0 cid
        · obtain ⟨h1, -⟩ := hbadc hgb
          rw [h1] at hc
          cases hc
        · obtain ⟨-, ⟨d, hdd, -⟩⟩ := hgoodc hgb
          rw [hdd]
          rfl
      · obtain ⟨h1, -⟩ := hspec.2 hmem
        rw [h1] at hc
        have hc' : lk ([] : Registry) cid = some c := hc
        simp [lk] at hc'
    · intro cid d hd
      have hspec := reload_list_spec R S disk0 hwf (disk0.map Prod.fst)
        ⟨[], disk0⟩ hnd (fun c2 _ => rfl) (fun c2 _ => rfl) cid
      by_cases hmem : cid ∈ disk0.map Prod.fst
      · obtain ⟨hgoodc, hbadc⟩ := hspec.1 hmem
        cases hgb : reloadGood R S disk0 cid
        · obtain ⟨-, h2⟩ := hbadc hgb
          rw [h2] at hd
          cases hd
        · obtain ⟨⟨c, hcreg⟩, ⟨d2, hdd, j, c2, hst, hdec, -⟩⟩ := hgoodc hgb
          rw [hdd] at hd
          injection hd with hd
          subst hd
          refine ⟨⟨j, c2, hst, hdec⟩, ?_⟩
          rw [hcreg]
          rfl
      · obtain ⟨-, h2⟩ := hspec.2 hmem
        rw [h2] at hd
        have hd' : lk disk0 cid = some d := hd
        have hnone : lk disk0 cid = none := (lk_none_iff_keys disk0 cid).mpr hmem
        rw [hnone] at hd'
        cases hd'

/-- Witness for C8 (amended): the start-preservation component applied
to the two-container state sAB (whose invariant is established
concretely), and the establishment component applied to the construction
over the disk holding the single well-formed container a. -/
theorem invariant_preservation_witness :
    Inv sAB ∧
    Inv (start_container allOkRuntime allOkStore sAB "a" t0).2 ∧
    Inv ((⟨[("a", { stoppedC with status := Status.Running })], [("a", { state := some (.ok (encodeContainer { stoppedC with status := Status.Running })), temp := none, bundle := true })]⟩ : MState)) :=
  ⟨Inv_sAB,
    invariant_preservation.2.1 allOkRuntime allOkStore sAB "a" t0 Inv_sAB,
    invariant_preservation.2.2.2.2.2.2.2 allOkRuntime allOkStore goodDisk _
      rfl (by decide) (show ∀ p ∈ goodDisk, wfEntry p = true by decide) rfl⟩

end Cruise
